import Mathlib

/-!
Shallow embedding of the jsonapi document model, its serialization shape,
its structural validator, its resource diff engine, and the template
(typed-struct mapping) layer of `src/template.rs`.

The repository snapshot carries `src/template.rs` and the test suites; the
core document model (`api.rs`) is present only through its tests, so the
model/serialization/validator/diff definitions below are modelled from the
specification's own words (each such definition says so in its doc comment),
while the template-layer definitions are translated directly from
`src/template.rs`.

JSON values are embedded as an inductive `JsonValue` (the counterpart of
`serde_json::Value`); numbers are embedded as integers, which covers every
number appearing in the claims and tests. Hash maps (`HashMap`,
`serde_json::Map`) are embedded as association lists `List (String × _)`;
the map invariant "keys unique" appears as `Nodup` hypotheses where a claim
needs it.
-/

namespace JsonApiSpec

/-- Embedding of `serde_json::Value`: the JSON value tree. Numbers are
embedded as integers. -/
inductive JsonValue where
  | null
  | bool (b : Bool)
  | num (n : Int)
  | str (s : String)
  | arr (items : List JsonValue)
  | obj (entries : List (String × JsonValue))

mutual

/-- Structural boolean equality on JSON values (the embedding of
`PartialEq` on `serde_json::Value`). -/
def JsonValue.beq : JsonValue → JsonValue → Bool
  | .null, .null => true
  | .bool a, .bool b => a == b
  | .num a, .num b => a == b
  | .str a, .str b => a == b
  | .arr xs, .arr ys => JsonValue.beqList xs ys
  | .obj xs, .obj ys => JsonValue.beqPairs xs ys
  | _, _ => false

/-- Pointwise `JsonValue.beq` on lists of values. -/
def JsonValue.beqList : List JsonValue → List JsonValue → Bool
  | [], [] => true
  | x :: xs, y :: ys => JsonValue.beq x y && JsonValue.beqList xs ys
  | _, _ => false

/-- Pointwise `JsonValue.beq` on lists of key/value pairs. -/
def JsonValue.beqPairs : List (String × JsonValue) → List (String × JsonValue) → Bool
  | [], [] => true
  | (k1, v1) :: xs, (k2, v2) :: ys => k1 == k2 && JsonValue.beq v1 v2 && JsonValue.beqPairs xs ys
  | _, _ => false

end

mutual

theorem JsonValue.beq_iff : ∀ a b : JsonValue, JsonValue.beq a b = true ↔ a = b
  | .null, .null => by simp [JsonValue.beq]
  | .bool a, .bool b => by simp [JsonValue.beq]
  | .num a, .num b => by simp [JsonValue.beq]
  | .str a, .str b => by simp [JsonValue.beq]
  | .arr xs, .arr ys => by
      simp only [JsonValue.beq, JsonValue.arr.injEq]
      exact JsonValue.beqList_iff xs ys
  | .obj xs, .obj ys => by
      simp only [JsonValue.beq, JsonValue.obj.injEq]
      exact JsonValue.beqPairs_iff xs ys
  | .null, .bool _ | .null, .num _ | .null, .str _ | .null, .arr _ | .null, .obj _
  | .bool _, .null | .bool _, .num _ | .bool _, .str _ | .bool _, .arr _ | .bool _, .obj _
  | .num _, .null | .num _, .bool _ | .num _, .str _ | .num _, .arr _ | .num _, .obj _
  | .str _, .null | .str _, .bool _ | .str _, .num _ | .str _, .arr _ | .str _, .obj _
  | .arr _, .null | .arr _, .bool _ | .arr _, .num _ | .arr _, .str _ | .arr _, .obj _
  | .obj _, .null | .obj _, .bool _ | .obj _, .num _ | .obj _, .str _ | .obj _, .arr _ => by
      simp [JsonValue.beq]

theorem JsonValue.beqList_iff : ∀ xs ys : List JsonValue, JsonValue.beqList xs ys = true ↔ xs = ys
  | [], [] => by simp [JsonValue.beqList]
  | [], _ :: _ => by simp [JsonValue.beqList]
  | _ :: _, [] => by simp [JsonValue.beqList]
  | x :: xs, y :: ys => by
      simp only [JsonValue.beqList, Bool.and_eq_true, List.cons.injEq]
      exact and_congr (JsonValue.beq_iff x y) (JsonValue.beqList_iff xs ys)

theorem JsonValue.beqPairs_iff : ∀ xs ys : List (String × JsonValue),
    JsonValue.beqPairs xs ys = true ↔ xs = ys
  | [], [] => by simp [JsonValue.beqPairs]
  | [], _ :: _ => by simp [JsonValue.beqPairs]
  | _ :: _, [] => by simp [JsonValue.beqPairs]
  | (k1, v1) :: xs, (k2, v2) :: ys => by
      simp only [JsonValue.beqPairs, Bool.and_eq_true, List.cons.injEq, Prod.mk.injEq,
        beq_iff_eq]
      exact and_assoc.trans ((and_congr Iff.rfl (and_congr (JsonValue.beq_iff v1 v2)
        (JsonValue.beqPairs_iff xs ys))).trans and_assoc.symm)

end

instance : DecidableEq JsonValue := fun a b =>
  decidable_of_iff (JsonValue.beq a b = true) (JsonValue.beq_iff a b)

/-- Lookup of a key in an association list, the embedding of
`HashMap::get` / field lookup in a `serde_json` object. -/
def lookupKey {β : Type} (k : String) : List (String × β) → Option β
  | [] => none
  | (k', v) :: t => if k' = k then some v else lookupKey k t

/-- Encoding helper: an optional struct field serializes to a single
key/value pair when present and to nothing when absent. -/
def optField (k : String) (v : Option JsonValue) : List (String × JsonValue) :=
  match v with
  | some x => [(k, x)]
  | none => []

/-- Modelled from the spec: `Links` of the missing `api.rs` — a mapping from
link name to an opaque JSON value. -/
abbrev Links := List (String × JsonValue)

/-- Modelled from the spec: `Meta` of the missing `api.rs` — an optional
mapping from name to JSON value. -/
abbrev Meta := List (String × JsonValue)

/-- Modelled from the spec: `ResourceAttributes` of the missing `api.rs` —
the attribute map of a resource, name to JSON value, keys unique. -/
abbrev ResourceAttributes := List (String × JsonValue)

/-- Modelled from the spec: `ResourceIdentifier` of the missing `api.rs` —
`{ type: string, id: string }`, an immutable value with structural
equality. -/
structure ResourceIdentifier where
  _type : String
  id : String
deriving DecidableEq

/-- Modelled from the spec: `IdentifierData` of the missing `api.rs` — a
tagged variant over absent-as-null, a single identifier, or an ordered
sequence of identifiers. -/
inductive IdentifierData where
  | None
  | Single (identifier : ResourceIdentifier)
  | Multiple (identifiers : List ResourceIdentifier)
deriving DecidableEq

/-- Modelled from the spec: `Relationship` of the missing `api.rs` —
`{ data: optional IdentifierData, links: optional Links }`. -/
structure Relationship where
  data : Option IdentifierData
  links : Option Links
deriving DecidableEq

/-- Modelled from the spec: `Relationships` of the missing `api.rs` — a
mapping from relationship name (unique) to `Relationship`. -/
abbrev Relationships := List (String × Relationship)

/-- Modelled from the spec: `Resource` of the missing `api.rs` — type plus
optional id, attribute map, optional relationships, links and meta. -/
structure Resource where
  _type : String
  id : Option String
  attributes : ResourceAttributes
  relationships : Option Relationships
  links : Option Links
  meta : Option Meta
deriving DecidableEq

/-- Modelled from the spec: the list-of-resources alias `Resources` of the
missing `api.rs`. -/
abbrev Resources := List Resource

/-- Modelled from the spec: `ResourceTemplate` of the missing `api.rs` —
the mapping-layer analogue of `Resource`, carrying no id (`src/template.rs`
constructs it from `_type`, `attributes` and `relationships` with the
remaining fields defaulted). -/
structure ResourceTemplate where
  _type : String
  attributes : ResourceAttributes
  relationships : Option Relationships
  links : Option Links
  meta : Option Meta
deriving DecidableEq

/-- Modelled from the spec: the list alias `ResourceTemplates` used by
`src/template.rs`. -/
abbrev ResourceTemplates := List ResourceTemplate

/-- Modelled from the spec: `PrimaryData` of the missing `api.rs` — the
"data" member of a document: explicit null, one resource, many resources,
plus the template analogues produced by the mapping layer. -/
inductive PrimaryData where
  | None
  | Single (resource : Resource)
  | Multiple (resources : Resources)
  | SingleTemplate (resource_template : ResourceTemplate)
  | MultipleTemplates (resource_templates : ResourceTemplates)
deriving DecidableEq

/-- Modelled from the spec: `JsonApiInfo` of the missing `api.rs` — a small
value object with optional fields. -/
structure JsonApiInfo where
  version : Option String
  meta : Option Meta
deriving DecidableEq

/-- Modelled from the spec: `DocumentData` of the missing `api.rs` —
`{ data, included, links, meta, jsonapi }`, all optional. -/
structure DocumentData where
  data : Option PrimaryData
  included : Option Resources
  links : Option Links
  meta : Option Meta
  jsonapi : Option JsonApiInfo
deriving DecidableEq

/-- Modelled from the spec: `ErrorSource` of the missing `api.rs` — the
`source` member of an error object, an object of optional members, kept
here as a generic mapping. -/
abbrev ErrorSource := List (String × JsonValue)

/-- Modelled from the spec: `JsonApiError` of the missing `api.rs` —
`{ id, links, status, code, title, detail, source, meta — all optional }`. -/
structure JsonApiError where
  id : Option String
  links : Option Links
  status : Option String
  code : Option String
  title : Option String
  detail : Option String
  source : Option ErrorSource
  meta : Option Meta
deriving DecidableEq

/-- Modelled from the spec: `DocumentError` of the missing `api.rs` —
`{ errors (required, may be empty), links, meta, jsonapi }`. -/
structure DocumentError where
  errors : List JsonApiError
  links : Option Links
  meta : Option Meta
  jsonapi : Option JsonApiInfo
deriving DecidableEq

/-- Modelled from the spec: `JsonApiDocument` of the missing `api.rs` — a
document is either a data document or an error document, never both. -/
inductive JsonApiDocument where
  | Data (document_data : DocumentData)
  | Error (document_error : DocumentError)
deriving DecidableEq

/-- Modelled from the spec: `DocumentValidationError` of the missing
`api.rs` — the enumerated violation kinds the validator reports. -/
inductive DocumentValidationError where
  | MissingContent
  | IncludedWithoutData
deriving DecidableEq

/-- Modelled from the spec: serialization of a `ResourceIdentifier` of the
missing `api.rs` — an object with the exact keys `type` and `id`. -/
def encodeResourceIdentifier (ri : ResourceIdentifier) : JsonValue :=
  .obj [("type", .str ri._type), ("id", .str ri.id)]

/-- Modelled from the spec: serialization of `IdentifierData` of the
missing `api.rs` — `None` is an explicit null, `Single` an object,
`Multiple` an array. -/
def encodeIdentifierData : IdentifierData → JsonValue
  | .None => .null
  | .Single ri => encodeResourceIdentifier ri
  | .Multiple ris => .arr (ris.map encodeResourceIdentifier)

/-- Modelled from the spec: serialization of a `Relationship` of the
missing `api.rs` — within a relationship the keys are `data` and `links`,
each omitted when the field is absent. -/
def encodeRelationship (r : Relationship) : JsonValue :=
  .obj (optField "data" (r.data.map encodeIdentifierData) ++
    optField "links" (r.links.map .obj))

/-- Modelled from the spec: serialization of the `Relationships` map of the
missing `api.rs` — an object with one member per relationship name. -/
def encodeRelationships (rels : Relationships) : JsonValue :=
  .obj (rels.map (fun p => (p.1, encodeRelationship p.2)))

/-- Modelled from the spec: serialization of a `Resource` of the missing
`api.rs` — the keys `type`, `id`, `attributes`, `relationships`, `links`,
`meta`, every absent optional field omitted; `attributes` is always
emitted (the reference output for an empty resource keeps
`"attributes":{}`). -/
def encodeResource (r : Resource) : JsonValue :=
  .obj ([("type", .str r._type)] ++ optField "id" (r.id.map .str) ++
    [("attributes", .obj r.attributes)] ++
    optField "relationships" (r.relationships.map encodeRelationships) ++
    optField "links" (r.links.map .obj) ++
    optField "meta" (r.meta.map .obj))

/-- Modelled from the spec: serialization of a `ResourceTemplate` of the
missing `api.rs` — shaped like a resource without an id. -/
def encodeResourceTemplate (t : ResourceTemplate) : JsonValue :=
  .obj ([("type", .str t._type), ("attributes", .obj t.attributes)] ++
    optField "relationships" (t.relationships.map encodeRelationships) ++
    optField "links" (t.links.map .obj) ++
    optField "meta" (t.meta.map .obj))

/-- Modelled from the spec: serialization of `PrimaryData` of the missing
`api.rs` — `None` ALWAYS encodes as an explicit null; the template
variants are structurally identical to the resource ones and collapse into
the same output shape. -/
def encodePrimaryData : PrimaryData → JsonValue
  | .None => .null
  | .Single r => encodeResource r
  | .Multiple rs => .arr (rs.map encodeResource)
  | .SingleTemplate t => encodeResourceTemplate t
  | .MultipleTemplates ts => .arr (ts.map encodeResourceTemplate)

/-- Modelled from the spec: serialization of `JsonApiInfo` of the missing
`api.rs`, every absent optional field omitted. -/
def encodeJsonApiInfo (i : JsonApiInfo) : JsonValue :=
  .obj (optField "version" (i.version.map .str) ++ optField "meta" (i.meta.map .obj))

/-- Modelled from the spec: the members of a serialized `DocumentData` of
the missing `api.rs` — keys `data`, `included`, `links`, `meta`,
`jsonapi`; a never-set `data` field produces no `data` key at all, while
`data = Some(PrimaryData::None)` produces `"data": null` through
`encodePrimaryData`. -/
def documentDataEntries (d : DocumentData) : List (String × JsonValue) :=
  optField "data" (d.data.map encodePrimaryData) ++
  optField "included" (d.included.map (fun rs => .arr (rs.map encodeResource))) ++
  optField "links" (d.links.map .obj) ++
  optField "meta" (d.meta.map .obj) ++
  optField "jsonapi" (d.jsonapi.map encodeJsonApiInfo)

/-- Modelled from the spec: serialization of `DocumentData` of the missing
`api.rs`. -/
def encodeDocumentData (d : DocumentData) : JsonValue :=
  .obj (documentDataEntries d)

/-- Modelled from the spec: the members of a serialized `JsonApiError` of
the missing `api.rs` — every absent optional field omitted. -/
def jsonApiErrorEntries (e : JsonApiError) : List (String × JsonValue) :=
  optField "id" (e.id.map .str) ++
  optField "links" (e.links.map .obj) ++
  optField "status" (e.status.map .str) ++
  optField "code" (e.code.map .str) ++
  optField "title" (e.title.map .str) ++
  optField "detail" (e.detail.map .str) ++
  optField "source" (e.source.map .obj) ++
  optField "meta" (e.meta.map .obj)

/-- Modelled from the spec: serialization of a `JsonApiError` of the
missing `api.rs`. -/
def encodeJsonApiError (e : JsonApiError) : JsonValue :=
  .obj (jsonApiErrorEntries e)

/-- Modelled from the spec: the members of a serialized `DocumentError` of
the missing `api.rs` — `errors` is required and always emitted, the other
optional fields are omitted when absent. -/
def documentErrorEntries (e : DocumentError) : List (String × JsonValue) :=
  [("errors", .arr (e.errors.map encodeJsonApiError))] ++
  optField "links" (e.links.map .obj) ++
  optField "meta" (e.meta.map .obj) ++
  optField "jsonapi" (e.jsonapi.map encodeJsonApiInfo)

/-- Modelled from the spec: serialization of `DocumentError` of the
missing `api.rs`. -/
def encodeDocumentError (e : DocumentError) : JsonValue :=
  .obj (documentErrorEntries e)

/-- Modelled from the spec: serialization of a `JsonApiDocument` of the
missing `api.rs` — a data document or an error document. -/
def encodeDocument : JsonApiDocument → JsonValue
  | .Data d => encodeDocumentData d
  | .Error e => encodeDocumentError e

/-- Decoding helper: decode every element of a list, failing if any element
fails (the embedding of deserializing a JSON array into a `Vec`). -/
def mapOption {α : Type} (f : JsonValue → Option α) : List JsonValue → Option (List α)
  | [] => some []
  | v :: t =>
    match f v, mapOption f t with
    | some x, some xs => some (x :: xs)
    | _, _ => none

/-- Decoding helper: decode every value of an association list, failing if
any value fails (the embedding of deserializing a JSON object into a map). -/
def mapPairsOption {α : Type} (f : JsonValue → Option α) :
    List (String × JsonValue) → Option (List (String × α))
  | [] => some []
  | (k, v) :: t =>
    match f v, mapPairsOption f t with
    | some x, some xs => some ((k, x) :: xs)
    | _, _ => none

/-- Decoding helper for an optional string member: an absent member or an
explicit null decodes to no value, a string decodes to that string,
anything else is a decode error. -/
def optStringField : Option JsonValue → Option (Option String)
  | none => some none
  | some .null => some none
  | some (.str s) => some (some s)
  | some _ => none

/-- Decoding helper for an optional object-shaped member (links, meta,
source): absent or null decodes to no value, an object to its entries. -/
def optObjField : Option JsonValue → Option (Option (List (String × JsonValue)))
  | none => some none
  | some .null => some none
  | some (.obj l) => some (some l)
  | some _ => none

/-- Modelled from the spec: deserialization of a `ResourceIdentifier` of
the missing `api.rs` — an object carrying the string members `type` and
`id`. -/
def decodeResourceIdentifier : JsonValue → Option ResourceIdentifier
  | .obj l =>
    match lookupKey "type" l, lookupKey "id" l with
    | some (.str t), some (.str i) => some ⟨t, i⟩
    | _, _ => none
  | _ => none

/-- Modelled from the spec: deserialization of `IdentifierData` of the
missing `api.rs` — null, a single identifier object, or an array of
identifier objects. -/
def decodeIdentifierData : JsonValue → Option IdentifierData
  | .null => some .None
  | .obj l => (decodeResourceIdentifier (.obj l)).map .Single
  | .arr vs => (mapOption decodeResourceIdentifier vs).map .Multiple
  | _ => none

/-- Modelled from the spec: deserialization of a `Relationship` of the
missing `api.rs` — an absent `data` member decodes to no data, a present
one (null included) through `decodeIdentifierData`. -/
def decodeRelationship : JsonValue → Option Relationship
  | .obj l =>
    (match lookupKey "data" l with
      | none => some none
      | some dv => (decodeIdentifierData dv).map some).bind fun d =>
    (optObjField (lookupKey "links" l)).bind fun lk =>
    some ⟨d, lk⟩
  | _ => none

/-- Decoding helper for the `attributes` member of a resource: an absent
member defaults to the empty map, a present one must be an object. -/
def attributesField : Option JsonValue → Option ResourceAttributes
  | none => some []
  | some (.obj l) => some l
  | some _ => none

/-- Decoding helper for the optional `relationships` member of a
resource. -/
def optRelationshipsField : Option JsonValue → Option (Option Relationships)
  | none => some none
  | some .null => some none
  | some (.obj l) => (mapPairsOption decodeRelationship l).map some
  | some _ => none

/-- Modelled from the spec: deserialization of a `Resource` of the missing
`api.rs` — `type` is required, `id`, `relationships`, `links` and `meta`
are optional, and a missing `attributes` member defaults to the empty
map. -/
def decodeResource : JsonValue → Option Resource
  | .obj l =>
    match lookupKey "type" l with
    | some (.str t) =>
      (optStringField (lookupKey "id" l)).bind fun oid =>
      (attributesField (lookupKey "attributes" l)).bind fun attrs =>
      (optRelationshipsField (lookupKey "relationships" l)).bind fun rels =>
      (optObjField (lookupKey "links" l)).bind fun lk =>
      (optObjField (lookupKey "meta" l)).bind fun mt =>
      some ⟨t, oid, attrs, rels, lk, mt⟩
    | _ => none
  | _ => none

/-- Modelled from the spec: deserialization of `PrimaryData` of the
missing `api.rs` — a `data` value that is null, a single object, or an
array of objects maps to `None`, `Single`, `Multiple` respectively (an
absent field is not constructible from input). -/
def decodePrimaryData : JsonValue → Option PrimaryData
  | .null => some .None
  | .obj l => (decodeResource (.obj l)).map .Single
  | .arr vs => (mapOption decodeResource vs).map .Multiple
  | _ => none

/-- Modelled from the spec: deserialization of `JsonApiInfo` of the
missing `api.rs`. -/
def decodeJsonApiInfo : JsonValue → Option JsonApiInfo
  | .obj l =>
    (optStringField (lookupKey "version" l)).bind fun v =>
    (optObjField (lookupKey "meta" l)).bind fun mt =>
    some ⟨v, mt⟩
  | _ => none

/-- Decoding helper for the optional `jsonapi` member of a document. -/
def optJsonApiInfoField : Option JsonValue → Option (Option JsonApiInfo)
  | none => some none
  | some .null => some none
  | some v => (decodeJsonApiInfo v).map some

/-- Modelled from the spec: deserialization of `DocumentData` of the
missing `api.rs` from the members of the document object — an absent
`data` member was never parsed and stays absent, a present one decodes
through `decodePrimaryData`. -/
def decodeDocumentData (l : List (String × JsonValue)) : Option DocumentData :=
  (match lookupKey "data" l with
    | none => some none
    | some dv => (decodePrimaryData dv).map some).bind fun d =>
  (match lookupKey "included" l with
    | none => some none
    | some .null => some none
    | some (.arr vs) => (mapOption decodeResource vs).map some
    | some _ => none).bind fun inc =>
  (optObjField (lookupKey "links" l)).bind fun lk =>
  (optObjField (lookupKey "meta" l)).bind fun mt =>
  (optJsonApiInfoField (lookupKey "jsonapi" l)).bind fun ja =>
  some ⟨d, inc, lk, mt, ja⟩

/-- The `data` member computation of `decodeDocumentData`, named: an
absent member stays absent, a present one decodes through
`decodePrimaryData`. -/
def dataField : Option JsonValue → Option (Option PrimaryData)
  | none => some none
  | some dv => (decodePrimaryData dv).map some

/-- The `included` member computation of `decodeDocumentData`, named: an
absent or null member stays absent, an array decodes its resources. -/
def includedField : Option JsonValue → Option (Option Resources)
  | none => some none
  | some .null => some none
  | some (.arr vs) => (mapOption decodeResource vs).map some
  | some _ => none

/-- Modelled from the spec: deserialization of a `JsonApiError` of the
missing `api.rs` — all members optional. -/
def decodeJsonApiError : JsonValue → Option JsonApiError
  | .obj l =>
    (optStringField (lookupKey "id" l)).bind fun id =>
    (optObjField (lookupKey "links" l)).bind fun lk =>
    (optStringField (lookupKey "status" l)).bind fun st =>
    (optStringField (lookupKey "code" l)).bind fun cd =>
    (optStringField (lookupKey "title" l)).bind fun ti =>
    (optStringField (lookupKey "detail" l)).bind fun de =>
    (optObjField (lookupKey "source" l)).bind fun src =>
    (optObjField (lookupKey "meta" l)).bind fun mt =>
    some ⟨id, lk, st, cd, ti, de, src, mt⟩
  | _ => none

/-- Modelled from the spec: deserialization of `DocumentError` of the
missing `api.rs` from the members of the document object — `errors` is
required and must be an array of error objects. -/
def decodeDocumentError (l : List (String × JsonValue)) : Option DocumentError :=
  (match lookupKey "errors" l with
    | some (.arr vs) => mapOption decodeJsonApiError vs
    | _ => none).bind fun errs =>
  (optObjField (lookupKey "links" l)).bind fun lk =>
  (optObjField (lookupKey "meta" l)).bind fun mt =>
  (optJsonApiInfoField (lookupKey "jsonapi" l)).bind fun ja =>
  some ⟨errs, lk, mt, ja⟩

/-- Modelled from the spec: deserialization of a `JsonApiDocument` of the
missing `api.rs` — a payload with an `errors` member selects the Error
variant (preferred when both occur), one with a `data` member selects the
Data variant, and a payload with neither is a decode error. -/
def decodeDocument : JsonValue → Option JsonApiDocument
  | .obj l =>
    if (lookupKey "errors" l).isSome then (decodeDocumentError l).map .Error
    else if (lookupKey "data" l).isSome then (decodeDocumentData l).map .Data
    else none
  | _ => none

/-- Modelled from the spec: `validate` of the missing `api.rs` — a pure
function from a `DocumentData` to an optional list of violation kinds,
evaluating every rule independently: `MissingContent` when the `data`
field is entirely absent, `IncludedWithoutData` when `included` is present
while `data` is absent; it returns no list when no rule fires. -/
def DocumentData.validate (d : DocumentData) : Option (List DocumentValidationError) :=
  let errs :=
    (if d.data.isNone then [DocumentValidationError.MissingContent] else []) ++
    (if d.data.isNone && d.included.isSome then [DocumentValidationError.IncludedWithoutData]
      else [])
  if errs.isEmpty then none else some errs

/-- Modelled from the spec: `Patch` of the missing `api.rs` — a tagged
operation over attribute and relationship changes; the relationship
operations carry the compared `data` payloads. -/
inductive Patch where
  | AttributeChanged (name : String) (old new : JsonValue)
  | AttributeAdded (name : String) (new : JsonValue)
  | AttributeRemoved (name : String) (old : JsonValue)
  | RelationshipChanged (name : String) (old new : Option IdentifierData)
  | RelationshipAdded (name : String) (new : Option IdentifierData)
  | RelationshipRemoved (name : String) (old : Option IdentifierData)
deriving DecidableEq

/-- Modelled from the spec: `PatchSet` of the missing `api.rs` — an
ordered sequence of patches. -/
structure PatchSet where
  patches : List Patch
deriving DecidableEq

/-- Modelled from the spec: `DiffError` of the missing `api.rs` — the
typed failure of the diff engine, reported only when two resources cannot
be reconciled into comparable shapes (unreachable for the embedded
values). -/
inductive DiffError where
  | incomparable (message : String)
deriving DecidableEq

/-- Modelled from the spec: the symmetric key difference procedure of the
diff engine in the missing `api.rs` — for each key present in both maps
with unequal values emit a change, for each key only in the old map a
removal, for each key only in the new map an addition; the deterministic
order is first-seen-in-old-then-new. -/
def symmetricKeyDiff {β : Type} [DecidableEq β] (changed : String → β → β → Patch)
    (added : String → β → Patch) (removed : String → β → Patch)
    (old new : List (String × β)) : List Patch :=
  old.filterMap (fun p =>
    match lookupKey p.1 new with
    | some v2 => if p.2 = v2 then none else some (changed p.1 p.2 v2)
    | none => some (removed p.1 p.2)) ++
  new.filterMap (fun p =>
    match lookupKey p.1 old with
    | some _ => none
    | none => some (added p.1 p.2))

/-- Modelled from the spec: the name-to-data view of an optional
relationship map which the diff engine compares structurally. -/
def relationshipDataEntries : Option Relationships → List (String × Option IdentifierData)
  | none => []
  | some rels => rels.map (fun p => (p.1, p.2.data))

/-- Modelled from the spec: `diff` of the missing `api.rs` — the
attribute-derived patches concatenated before the relationship-derived
patches, as a pure value. -/
def Resource.diff (a b : Resource) : Except DiffError PatchSet :=
  Except.ok ⟨symmetricKeyDiff .AttributeChanged .AttributeAdded .AttributeRemoved
      a.attributes b.attributes ++
    symmetricKeyDiff .RelationshipChanged .RelationshipAdded .RelationshipRemoved
      (relationshipDataEntries a.relationships) (relationshipDataEntries b.relationships)⟩

/-- Map equality of two association lists as key/value sets: the embedding
of `HashMap` equality, independent of insertion order. -/
def mapEquiv {β : Type} (l1 l2 : List (String × β)) : Prop :=
  ∀ k, lookupKey k l1 = lookupKey k l2

/-- Map equality lifted to optional maps. -/
def optMapEquiv {β : Type} : Option (List (String × β)) → Option (List (String × β)) → Prop
  | none, none => True
  | some l1, some l2 => mapEquiv l1 l2
  | _, _ => False

/-- Modelled from the spec: `PartialEq` on `Resource` of the missing
`api.rs` — two resources are equal iff type, id, attributes (as a
key/value set, independent of insertion order), relationships (as a
name/value set, independent of insertion order), links and meta are all
equal. -/
def Resource.eqv (a b : Resource) : Prop :=
  a._type = b._type ∧ a.id = b.id ∧ mapEquiv a.attributes b.attributes ∧
  optMapEquiv a.relationships b.relationships ∧ optMapEquiv a.links b.links ∧
  optMapEquiv a.meta b.meta

/-- Insertion into an association list with `HashMap::insert` semantics:
replace the value at an existing key, otherwise add the entry. -/
def mapInsert {β : Type} (k : String) (v : β) : List (String × β) → List (String × β)
  | [] => [(k, v)]
  | p :: t => if p.1 = k then (k, v) :: t else p :: mapInsert k v t

/-- Embedding of the `JsonApiTemplate` trait surface of `src/template.rs`:
the per-type items a trait implementation provides — `jsonapi_type`,
`relationship_fields`, `build_relationships`, and the serde serialization
(`to_value`) and deserialization (`from_value`) of the implementing
type. -/
structure JsonApiTemplate (α : Type) where
  jsonapi_type : α → String
  relationship_fields : Option (List String)
  build_relationships : α → Option Relationships
  toValue : α → JsonValue
  fromValue : JsonValue → Option α

/-- Translation of `JsonApiTemplate::extract_attributes` of
`src/template.rs`: keep every serialized field whose key is not a declared
relationship field. -/
def extract_attributes (relationship_fields : Option (List String))
    (attrs : List (String × JsonValue)) : ResourceAttributes :=
  attrs.filter (fun p =>
    match relationship_fields with
    | some fields => !fields.contains p.1
    | none => true)

/-- Translation of `JsonApiTemplate::resource_template_to_attrs` of
`src/template.rs`: the serialized value a relationship contributes to the
attribute map — the identifier for `Single`, the identifier array for
`Multiple`, and JSON null for `IdentifierData::None` or an absent data
field. -/
def relationshipAttrValue (relation : Relationship) : JsonValue :=
  match relation.data with
  | some .None => .null
  | some (.Single identifier) => encodeResourceIdentifier identifier
  | some (.Multiple identifiers) => .arr (identifiers.map encodeResourceIdentifier)
  | none => .null

/-- Translation of `JsonApiTemplate::resource_template_to_attrs` of
`src/template.rs`: clone the template's attribute map, then insert one
entry per relationship name. -/
def resource_template_to_attrs (resource_template : ResourceTemplate) : ResourceAttributes :=
  match resource_template.relationships with
  | none => resource_template.attributes
  | some relations =>
    relations.foldl (fun acc p => mapInsert p.1 (relationshipAttrValue p.2) acc)
      resource_template.attributes

/-- Translation of `JsonApiTemplate::build_has_one` of `src/template.rs`. -/
def build_has_one (model : ResourceIdentifier) : Relationship :=
  { data := some (IdentifierData.Single model), links := none }

/-- Translation of `JsonApiTemplate::build_has_many` of `src/template.rs`. -/
def build_has_many (models : List ResourceIdentifier) : Relationship :=
  { data := some (IdentifierData.Multiple models), links := none }

/-- Translation of `JsonApiTemplate::from_serializable` of
`src/template.rs`: re-serialize an intermediate value and deserialize it
into the implementing type; here the intermediate is already a
`JsonValue`. -/
def from_serializable {α : Type} (T : JsonApiTemplate α) (v : JsonValue) : Except String α :=
  match T.fromValue v with
  | some x => Except.ok x
  | none => Except.error "deserialization error"

/-- Translation of `JsonApiTemplate::from_jsonapi_resource_template` of
`src/template.rs`: deserialize the attribute map produced by
`resource_template_to_attrs`. -/
def from_jsonapi_resource_template {α : Type} (T : JsonApiTemplate α)
    (resource_template : ResourceTemplate) : Except String α :=
  from_serializable T (.obj (resource_template_to_attrs resource_template))

/-- Translation of `JsonApiTemplate::from_jsonapi_document` of
`src/template.rs`: instantiate the implementing type from the primary data
of a `DocumentData`, failing with the exact `bail!` messages on absent
data and on the non-template variants. -/
def from_jsonapi_document {α : Type} (T : JsonApiTemplate α) (doc : DocumentData) :
    Except String α :=
  match doc.data with
  | some primary_data =>
    match primary_data with
    | .None => Except.error "Document had no data"
    | .Single _ => Except.error "Document had no template but a fully qualified resource"
    | .Multiple _ => Except.error "Document had no templates but fully qualified resources"
    | .SingleTemplate resource_template =>
      from_serializable T (.obj (resource_template_to_attrs resource_template))
    | .MultipleTemplates resource_templates =>
      from_serializable T
        (.arr (resource_templates.map (fun r => .obj (resource_template_to_attrs r))))
  | none => Except.error "Document had no data"

/-- Translation of `JsonApiTemplate::to_jsonapi_resource_template` of
`src/template.rs`: serialize the value, keep the non-relationship fields
as attributes and attach `build_relationships`; the source panics when the
serialization is not an object, embedded here as `none`. -/
def to_jsonapi_resource_template {α : Type} (T : JsonApiTemplate α) (x : α) :
    Option ResourceTemplate :=
  match T.toValue x with
  | .obj attrs =>
    some { _type := T.jsonapi_type x
           attributes := extract_attributes T.relationship_fields attrs
           relationships := T.build_relationships x
           links := none
           meta := none }
  | _ => none

/-- Keys of a JSON object value (empty for non-objects); used to state
which members a serialized value carries. -/
def objKeys : JsonValue → List String
  | .obj l => l.map Prod.fst
  | _ => []

/-- Modelled from the spec: the primary-data values free of the
mapping-layer template variants (decoding maps a `data` value only to
`None`, `Single` or `Multiple`, never to a template variant). -/
def PrimaryData.templateFree : PrimaryData → Prop
  | .SingleTemplate _ => False
  | .MultipleTemplates _ => False
  | _ => True

/-- Modelled from the spec: the documents the decode direction can
reconstruct — a Data document must carry a present, template-free `data`
field (an absent `data` encodes to an object with neither `data` nor
`errors`, which is a malformed payload on decode). -/
def JsonApiDocument.roundTrippable : JsonApiDocument → Prop
  | .Data dd => ∃ pd, dd.data = some pd ∧ pd.templateFree
  | .Error _ => True

/-- Concrete `JsonApiTemplate` instance whose relationship entry does not
serialize back to the original field value: the serialized `chief` field
holds a plain string while the declared relationship carries an identifier
object. Its serialization is an object and its `build_relationships`
output covers exactly the fields named by `relationship_fields`. -/
def chiefTemplateExample : JsonApiTemplate String :=
  { jsonapi_type := fun _ => "employees"
    relationship_fields := some ["chief"]
    build_relationships := fun _ =>
      some [("chief", build_has_one { _type := "people", id := "9" })]
    toValue := fun x => .obj [("chief", .str x)]
    fromValue := fun v =>
      match v with
      | .obj l =>
        match lookupKey "chief" l with
        | some (.str s) => some s
        | _ => none
      | _ => none }

/-- The resource template `to_jsonapi_resource_template` produces from
`chiefTemplateExample` at input `"alice"`: the `chief` field is stripped
from the attributes and replaced by the declared relationship. -/
def chiefTemplateStripped : ResourceTemplate :=
  { _type := "employees"
    attributes := []
    relationships := some [("chief", build_has_one { _type := "people", id := "9" })]
    links := none
    meta := none }

/-- Concrete `JsonApiTemplate` instance mirroring the `Book` template of
the test suite: a title attribute plus one relationship field whose
serialized value is the identifier itself. -/
def bookTemplateExample : JsonApiTemplate String :=
  { jsonapi_type := fun _ => "books"
    relationship_fields := some ["chief"]
    build_relationships := fun _ =>
      some [("chief", build_has_one { _type := "people", id := "9" })]
    toValue := fun s => .obj [("title", .str s),
      ("chief", .obj [("type", .str "people"), ("id", .str "9")])]
    fromValue := fun v =>
      match v with
      | .obj l =>
        match lookupKey "title" l with
        | some (.str s) => some s
        | _ => none
      | _ => none }

/-- Two JSON object bodies that are the same set of members in a possibly
different order: permuted entry lists with unique keys. This is the shape
of an `attributes` or `relationships` object whose members were
reordered. -/
def objPermSim (v1 v2 : JsonValue) : Prop :=
  ∃ e1 e2, v1 = JsonValue.obj e1 ∧ v2 = JsonValue.obj e2 ∧ e1.Perm e2 ∧
    (e1.map Prod.fst).Nodup

/-- Two members of a resource object drawn from two JSON texts that differ
only in the order of object keys within `attributes` or `relationships`
objects: the member names agree, and the values are equal except that the
`attributes` and `relationships` values may be reordered objects. -/
def resourceEntrySim (p q : String × JsonValue) : Prop :=
  p.1 = q.1 ∧ (p.2 = q.2 ∨
    ((p.1 = "attributes" ∨ p.1 = "relationships") ∧ objPermSim p.2 q.2))

/-- Two resource object values related member-by-member by
`resourceEntrySim`. -/
def resourceObjSim (v1 v2 : JsonValue) : Prop :=
  ∃ e1 e2, v1 = JsonValue.obj e1 ∧ v2 = JsonValue.obj e2 ∧
    List.Forall₂ resourceEntrySim e1 e2

/-- Two members of a document object drawn from two JSON texts that differ
only in the order of object keys within `attributes` or `relationships`
objects: member names agree, and values are equal except that the `data`
member may hold a reordered resource object or an array of them, and the
`included` member an array of them. -/
def documentEntrySim (p q : String × JsonValue) : Prop :=
  p.1 = q.1 ∧ (p.2 = q.2 ∨
    (p.1 = "data" ∧ (resourceObjSim p.2 q.2 ∨
      ∃ vs1 vs2, p.2 = JsonValue.arr vs1 ∧ q.2 = JsonValue.arr vs2 ∧
        List.Forall₂ resourceObjSim vs1 vs2)) ∨
    (p.1 = "included" ∧
      ∃ vs1 vs2, p.2 = JsonValue.arr vs1 ∧ q.2 = JsonValue.arr vs2 ∧
        List.Forall₂ resourceObjSim vs1 vs2))

/-- A relation lifted to optional values: both absent, or both present and
related. -/
def optionRel {α : Type} (R : α → α → Prop) : Option α → Option α → Prop
  | none, none => True
  | some a, some b => R a b
  | _, _ => False

/-- Modelled from the spec: equality of primary data under the
insertion-order-independent resource equality — resources are compared by
`Resource.eqv`, everything else structurally. -/
def PrimaryData.eqv : PrimaryData → PrimaryData → Prop
  | .None, .None => True
  | .Single r1, .Single r2 => Resource.eqv r1 r2
  | .Multiple rs1, .Multiple rs2 => List.Forall₂ Resource.eqv rs1 rs2
  | pd1, pd2 => pd1 = pd2

/-- Modelled from the spec: equality of `DocumentData` under the
insertion-order-independent resource equality — primary data and included
resources compared through `Resource.eqv`, the map-valued `links` and
`meta` as key/value sets, the rest structurally. -/
def DocumentData.eqv (d1 d2 : DocumentData) : Prop :=
  optionRel PrimaryData.eqv d1.data d2.data ∧
  optionRel (List.Forall₂ Resource.eqv) d1.included d2.included ∧
  optMapEquiv d1.links d2.links ∧ optMapEquiv d1.meta d2.meta ∧
  d1.jsonapi = d2.jsonapi

/-- Modelled from the spec: equality of whole documents under the
insertion-order-independent resource equality; a Data document never
equals an Error document. -/
def JsonApiDocument.eqv : JsonApiDocument → JsonApiDocument → Prop
  | .Data d1, .Data d2 => DocumentData.eqv d1 d2
  | .Error e1, .Error e2 =>
    e1.errors = e2.errors ∧ optMapEquiv e1.links e2.links ∧
      optMapEquiv e1.meta e2.meta ∧ e1.jsonapi = e2.jsonapi
  | _, _ => False

theorem zip_self_eq_map {α : Type} (l : List α) : l.zip l = l.map (fun a => (a, a)) := by
  induction l with
  | nil => rfl
  | cons x t ih => simp [List.zip_cons_cons, ih]

theorem filterMap_ite_eq_filter_map {α β : Type} (P : α → Prop) [DecidablePred P] (g : α → β)
    (l : List α) :
    l.filterMap (fun q => if P q then none else some (g q)) =
      (l.filter (fun q => decide ¬(P q))).map g := by
  induction l with
  | nil => rfl
  | cons x t ih => by_cases h : P x <;> simp [h, ih]

theorem symmetricKeyDiff_eq_of_keys_eq {β : Type} [DecidableEq β]
    (changed : String → β → β → Patch) (added : String → β → Patch)
    (removed : String → β → Patch) :
    ∀ l1 l2 : List (String × β), l1.map Prod.fst = l2.map Prod.fst →
      (l1.map Prod.fst).Nodup →
      symmetricKeyDiff changed added removed l1 l2 =
        (l1.zip l2).filterMap (fun q => if q.1.2 = q.2.2 then none
          else some (changed q.1.1 q.1.2 q.2.2)) := by
  intro l1
  induction l1 with
  | nil =>
    intro l2 hkeys _
    cases l2 with
    | nil => rfl
    | cons q t => simp at hkeys
  | cons p t1 ih =>
    intro l2 hkeys hnd
    cases l2 with
    | nil => simp at hkeys
    | cons q t2 =>
      simp only [List.map_cons, List.cons.injEq] at hkeys
      obtain ⟨hpq, htkeys⟩ := hkeys
      simp only [List.map_cons, List.nodup_cons] at hnd
      obtain ⟨hpnot, hndt⟩ := hnd
      have hlook1 : lookupKey p.1 (q :: t2) = some q.2 := by
        simp [lookupKey, hpq.symm]
      have hlook2 : lookupKey q.1 (p :: t1) = some p.2 := by
        simp [lookupKey, hpq.symm]
      have hcong1 : List.filterMap (fun x => match lookupKey x.1 (q :: t2) with
          | some v2 => if x.2 = v2 then none else some (changed x.1 x.2 v2)
          | none => some (removed x.1 x.2)) t1 =
          List.filterMap (fun x => match lookupKey x.1 t2 with
          | some v2 => if x.2 = v2 then none else some (changed x.1 x.2 v2)
          | none => some (removed x.1 x.2)) t1 := by
        apply List.filterMap_congr
        intro x hx
        have hxne : q.1 ≠ x.1 := by
          rw [← hpq]
          intro hcontra
          exact hpnot (hcontra ▸ List.mem_map_of_mem Prod.fst hx)
        rw [lookupKey, if_neg hxne]
      have hcong2 : List.filterMap (fun x => match lookupKey x.1 (p :: t1) with
          | some _ => none
          | none => some (added x.1 x.2)) t2 =
          List.filterMap (fun x => match lookupKey x.1 t1 with
          | some _ => none
          | none => some (added x.1 x.2)) t2 := by
        apply List.filterMap_congr
        intro x hx
        have hxmem : x.1 ∈ t1.map Prod.fst := by
          rw [htkeys]
          exact List.mem_map_of_mem Prod.fst hx
        have hxne : p.1 ≠ x.1 := fun hcontra => hpnot (hcontra ▸ hxmem)
        rw [lookupKey, if_neg hxne]
      simp only [symmetricKeyDiff, List.filterMap_cons, hlook1, hlook2, hcong1, hcong2]
      have hrest := ih t2 htkeys hndt
      simp only [symmetricKeyDiff] at hrest
      cases hval : decide (p.2 = q.2) with
      | true =>
        have hv : p.2 = q.2 := of_decide_eq_true hval
        simp only [List.zip_cons_cons, List.filterMap_cons, if_pos hv, hrest]
      | false =>
        have hv : ¬ (p.2 = q.2) := of_decide_eq_false hval
        simp only [List.zip_cons_cons, List.filterMap_cons, if_neg hv, hrest,
          List.cons_append, List.append_assoc]

theorem symmetricKeyDiff_self {β : Type} [DecidableEq β]
    (changed : String → β → β → Patch) (added : String → β → Patch)
    (removed : String → β → Patch) (l : List (String × β))
    (hnd : (l.map Prod.fst).Nodup) :
    symmetricKeyDiff changed added removed l l = [] := by
  rw [symmetricKeyDiff_eq_of_keys_eq changed added removed l l rfl hnd, zip_self_eq_map,
    List.filterMap_map]
  have : ∀ x ∈ l, ((fun q : (String × β) × String × β =>
      if q.1.2 = q.2.2 then none else some (changed q.1.1 q.1.2 q.2.2)) ∘
        fun a => (a, a)) x = none := by
    intro x _
    simp
  rw [List.filterMap_congr this]
  simp

theorem lookupKey_mapInsert_self {β : Type} (k : String) (v : β) (l : List (String × β)) :
    lookupKey k (mapInsert k v l) = some v := by
  induction l with
  | nil => simp [mapInsert, lookupKey]
  | cons p t ih =>
    by_cases hp : p.1 = k
    · simp [mapInsert, hp, lookupKey]
    · simp [mapInsert, hp, lookupKey, ih]

theorem lookupKey_mapInsert_ne {β : Type} {k k' : String} (h : k' ≠ k) (v : β)
    (l : List (String × β)) : lookupKey k' (mapInsert k v l) = lookupKey k' l := by
  induction l with
  | nil => simp [mapInsert, lookupKey, Ne.symm h]
  | cons p t ih =>
    by_cases hp : p.1 = k
    · simp [mapInsert, hp, lookupKey, Ne.symm h]
    · simp [mapInsert, hp, lookupKey, ih]

theorem lookupKey_foldl_mapInsert_not_mem {β γ : Type} (g : γ → β)
    (rels : List (String × γ)) (k : String) (h : k ∉ rels.map Prod.fst)
    (acc : List (String × β)) :
    lookupKey k (rels.foldl (fun acc p => mapInsert p.1 (g p.2) acc) acc) = lookupKey k acc := by
  induction rels generalizing acc with
  | nil => rfl
  | cons p t ih =>
    simp only [List.map_cons, List.mem_cons, not_or] at h
    simp only [List.foldl_cons]
    rw [ih (by simpa using h.2) _, lookupKey_mapInsert_ne h.1]

theorem lookupKey_foldl_mapInsert_mem {β γ : Type} (g : γ → β)
    (rels : List (String × γ)) (k : String) (rel : γ)
    (hnd : (rels.map Prod.fst).Nodup) (hmem : (k, rel) ∈ rels)
    (acc : List (String × β)) :
    lookupKey k (rels.foldl (fun acc p => mapInsert p.1 (g p.2) acc) acc) = some (g rel) := by
  induction rels generalizing acc with
  | nil => simp at hmem
  | cons p t ih =>
    simp only [List.map_cons, List.nodup_cons] at hnd
    rcases List.mem_cons.mp hmem with hhead | htail
    · subst hhead
      simp only [List.foldl_cons]
      rw [lookupKey_foldl_mapInsert_not_mem g t k hnd.1 _, lookupKey_mapInsert_self]
    · simp only [List.foldl_cons]
      exact ih hnd.2 htail _

theorem lookupKey_extract_attributes_not_field {fields : List String} {k : String}
    (h : k ∉ fields) (xs : List (String × JsonValue)) :
    lookupKey k (extract_attributes (some fields) xs) = lookupKey k xs := by
  induction xs with
  | nil => rfl
  | cons p t ih =>
    simp only [extract_attributes] at ih ⊢
    rw [List.filter_cons]
    by_cases hmem : p.1 ∈ fields
    · have hp : p.1 ≠ k := fun hh => h (hh ▸ hmem)
      rw [if_neg (by simp [hmem]), ih]
      simp [lookupKey, hp]
    · rw [if_pos (by simp [hmem])]
      by_cases hp : p.1 = k
      · simp [lookupKey, hp]
      · have ih2 : lookupKey k (List.filter (fun p => !decide (p.1 ∈ fields)) t) =
            lookupKey k t := by simpa using ih
        simp [lookupKey, hp, ih2]

theorem mapOption_map_of_forall {α : Type} (f : JsonValue → Option α) (g : α → JsonValue)
    (l : List α) (h : ∀ x ∈ l, f (g x) = some x) : mapOption f (l.map g) = some l := by
  induction l with
  | nil => rfl
  | cons x t ih =>
    simp only [List.map_cons, mapOption, h x (List.mem_cons_self x t),
      ih (fun y hy => h y (List.mem_cons_of_mem x hy))]

theorem mapPairsOption_map_of_forall {α : Type} (f : JsonValue → Option α) (g : α → JsonValue)
    (l : List (String × α)) (h : ∀ p ∈ l, f (g p.2) = some p.2) :
    mapPairsOption f (l.map (fun p => (p.1, g p.2))) = some l := by
  induction l with
  | nil => rfl
  | cons p t ih =>
    obtain ⟨k, v⟩ := p
    simp only [List.map_cons, mapPairsOption, h (k, v) (List.mem_cons_self (k, v) t),
      ih (fun q hq => h q (List.mem_cons_of_mem (k, v) hq))]

theorem decode_encode_identifier (ri : ResourceIdentifier) :
    decodeResourceIdentifier (encodeResourceIdentifier ri) = some ri := rfl

theorem decode_encode_identifier_data (d : IdentifierData) :
    decodeIdentifierData (encodeIdentifierData d) = some d := by
  cases d with
  | None => rfl
  | Single ri => rfl
  | Multiple ris =>
    simp only [encodeIdentifierData, decodeIdentifierData,
      mapOption_map_of_forall decodeResourceIdentifier encodeResourceIdentifier ris
        (fun x _ => decode_encode_identifier x), Option.map_some']

theorem decode_encode_relationship (rel : Relationship) :
    decodeRelationship (encodeRelationship rel) = some rel := by
  obtain ⟨d, lk⟩ := rel
  cases d <;> cases lk <;>
    simp [encodeRelationship, decodeRelationship, optField, lookupKey, optObjField,
      decode_encode_identifier_data]

theorem decode_encode_relationships (rels : Relationships) :
    mapPairsOption decodeRelationship (rels.map (fun p => (p.1, encodeRelationship p.2))) =
      some rels :=
  mapPairsOption_map_of_forall _ _ rels (fun p _ => decode_encode_relationship p.2)

theorem decode_encode_resource (r : Resource) :
    decodeResource (encodeResource r) = some r := by
  obtain ⟨t, id, attrs, rels, lks, mt⟩ := r
  cases id <;> cases rels <;> cases lks <;> cases mt <;>
    simp [encodeResource, decodeResource, encodeRelationships, optField, lookupKey,
      optStringField, attributesField, optRelationshipsField, optObjField,
      decode_encode_relationships]

theorem encodeResource_obj (r : Resource) :
    encodeResource r = JsonValue.obj ([("type", JsonValue.str r._type)] ++
      optField "id" (r.id.map JsonValue.str) ++
      [("attributes", JsonValue.obj r.attributes)] ++
      optField "relationships" (r.relationships.map encodeRelationships) ++
      optField "links" (r.links.map JsonValue.obj) ++
      optField "meta" (r.meta.map JsonValue.obj)) := rfl

theorem decode_encode_primary_data (pd : PrimaryData) (h : pd.templateFree) :
    decodePrimaryData (encodePrimaryData pd) = some pd := by
  cases pd with
  | None => rfl
  | Single r =>
    simp only [encodePrimaryData, encodeResource_obj, decodePrimaryData]
    rw [← encodeResource_obj, decode_encode_resource]
    rfl
  | Multiple rs =>
    simp only [encodePrimaryData, decodePrimaryData,
      mapOption_map_of_forall decodeResource encodeResource rs
        (fun x _ => decode_encode_resource x), Option.map_some']
  | SingleTemplate t => exact h.elim
  | MultipleTemplates ts => exact h.elim

theorem decode_encode_jsonapi_info (i : JsonApiInfo) :
    decodeJsonApiInfo (encodeJsonApiInfo i) = some i := by
  obtain ⟨v, m⟩ := i
  cases v <;> cases m <;>
    simp [encodeJsonApiInfo, decodeJsonApiInfo, optField, lookupKey, optStringField,
      optObjField]

theorem optJsonApiInfoField_none : optJsonApiInfoField none = some none := rfl

theorem optJsonApiInfoField_encode (i : JsonApiInfo) :
    optJsonApiInfoField (some (encodeJsonApiInfo i)) = some (some i) := by
  obtain ⟨v, m⟩ := i
  cases v <;> cases m <;> rfl

theorem decode_encode_json_api_error (e : JsonApiError) :
    decodeJsonApiError (encodeJsonApiError e) = some e := by
  obtain ⟨id, lk, st, cd, ti, de, src, mt⟩ := e
  cases id <;> cases lk <;> cases st <;> cases cd <;> cases ti <;> cases de <;>
    cases src <;> cases mt <;>
    simp [encodeJsonApiError, jsonApiErrorEntries, decodeJsonApiError, optField, lookupKey,
      optStringField, optObjField]

theorem decode_encode_document_data (dd : DocumentData)
    (h : ∀ pd, dd.data = some pd → pd.templateFree) :
    decodeDocumentData (documentDataEntries dd) = some dd := by
  obtain ⟨dat, inc, lks, mt, ja⟩ := dd
  have hmapinc : ∀ rs : Resources, mapOption decodeResource (rs.map encodeResource) = some rs :=
    fun rs => mapOption_map_of_forall _ _ rs (fun x _ => decode_encode_resource x)
  cases dat with
  | none =>
    cases inc <;> cases lks <;> cases mt <;> cases ja <;>
      simp [documentDataEntries, decodeDocumentData, optField, lookupKey, optObjField,
        optJsonApiInfoField_encode, optJsonApiInfoField_none, hmapinc]
  | some pd =>
    have hpd := decode_encode_primary_data pd (h pd rfl)
    cases inc <;> cases lks <;> cases mt <;> cases ja <;>
      simp [documentDataEntries, decodeDocumentData, optField, lookupKey, optObjField,
        optJsonApiInfoField_encode, optJsonApiInfoField_none, hmapinc, hpd]

theorem decode_encode_document_error (e : DocumentError) :
    decodeDocumentError (documentErrorEntries e) = some e := by
  obtain ⟨errs, lks, mt, ja⟩ := e
  have herrs : mapOption decodeJsonApiError (errs.map encodeJsonApiError) = some errs :=
    mapOption_map_of_forall _ _ errs (fun x _ => decode_encode_json_api_error x)
  cases lks <;> cases mt <;> cases ja <;>
    simp [documentErrorEntries, decodeDocumentError, optField, lookupKey, optObjField,
      optJsonApiInfoField_encode, optJsonApiInfoField_none, herrs]

theorem lookupKey_documentDataEntries_errors (dd : DocumentData) :
    lookupKey "errors" (documentDataEntries dd) = none := by
  obtain ⟨dat, inc, lks, mt, ja⟩ := dd
  cases dat <;> cases inc <;> cases lks <;> cases mt <;> cases ja <;>
    simp [documentDataEntries, optField, lookupKey]

theorem lookupKey_documentDataEntries_data (dd : DocumentData) (pd : PrimaryData)
    (hd : dd.data = some pd) :
    lookupKey "data" (documentDataEntries dd) = some (encodePrimaryData pd) := by
  simp [documentDataEntries, hd, optField, lookupKey]

theorem lookupKey_eq_of_perm {β : Type} {l1 l2 : List (String × β)} (h : l1.Perm l2)
    (hnd : (l1.map Prod.fst).Nodup) (k : String) : lookupKey k l1 = lookupKey k l2 := by
  induction h with
  | nil => rfl
  | cons p h ih =>
    simp only [List.map_cons, List.nodup_cons] at hnd
    by_cases hp : p.1 = k
    · simp [lookupKey, hp]
    · simp only [lookupKey, if_neg hp]
      exact ih hnd.2
  | swap x y l =>
    simp only [List.map_cons, List.nodup_cons, List.mem_cons] at hnd
    by_cases hy : y.1 = k <;> by_cases hx : x.1 = k
    · exact absurd (hy.trans hx.symm) (fun hh => hnd.1 (Or.inl hh))
    · simp [lookupKey, hy, hx]
    · simp [lookupKey, hy, hx]
    · simp [lookupKey, hy, hx]
  | trans h12 h23 ih12 ih23 =>
    exact (ih12 hnd).trans (ih23 (((h12.map Prod.fst).nodup_iff).mp hnd))

theorem mapPairsOption_keys {α : Type} (f : JsonValue → Option α) :
    ∀ {l : List (String × JsonValue)} {r : List (String × α)},
      mapPairsOption f l = some r → r.map Prod.fst = l.map Prod.fst := by
  intro l
  induction l with
  | nil =>
    intro r h
    simp only [mapPairsOption, Option.some.injEq] at h
    subst h
    rfl
  | cons p t ih =>
    obtain ⟨k, v⟩ := p
    intro r h
    cases hf : f v with
    | none => rw [mapPairsOption, hf] at h; exact absurd h (by simp)
    | some x =>
      cases ht : mapPairsOption f t with
      | none => rw [mapPairsOption, hf, ht] at h; exact absurd h (by simp)
      | some xs =>
        rw [mapPairsOption, hf, ht] at h
        simp only [Option.some.injEq] at h
        subst h
        simp [ih ht]

theorem mapPairsOption_perm {α : Type} (f : JsonValue → Option α)
    {l1 l2 : List (String × JsonValue)} (h : l1.Perm l2) :
    ∀ {r1 : List (String × α)}, mapPairsOption f l1 = some r1 →
      ∃ r2, mapPairsOption f l2 = some r2 ∧ r1.Perm r2 := by
  induction h with
  | nil =>
    intro r1 h1
    exact ⟨r1, h1, List.Perm.refl r1⟩
  | @cons p t1 t2 h ih =>
    intro r1 h1
    obtain ⟨k, v⟩ := p
    cases hf : f v with
    | none => rw [mapPairsOption, hf] at h1; exact absurd h1 (by simp)
    | some x =>
      cases ht : mapPairsOption f t1 with
      | none => rw [mapPairsOption, hf, ht] at h1; exact absurd h1 (by simp)
      | some s1 =>
        rw [mapPairsOption, hf, ht] at h1
        simp only [Option.some.injEq] at h1
        subst h1
        obtain ⟨s2, hs2, hperm⟩ := ih ht
        exact ⟨(k, x) :: s2, by rw [mapPairsOption, hf, hs2], hperm.cons _⟩
  | swap x y l =>
    intro r1 h1
    obtain ⟨kx, vx⟩ := x
    obtain ⟨ky, vy⟩ := y
    cases hfy : f vy with
    | none => rw [mapPairsOption, hfy] at h1; exact absurd h1 (by simp)
    | some ay =>
      cases hfx : f vx with
      | none =>
        rw [mapPairsOption, hfy, mapPairsOption, hfx] at h1
        exact absurd h1 (by simp)
      | some ax =>
        cases hl : mapPairsOption f l with
        | none =>
          rw [mapPairsOption, hfy, mapPairsOption, hfx, hl] at h1
          exact absurd h1 (by simp)
        | some s =>
          rw [mapPairsOption, hfy, mapPairsOption, hfx, hl] at h1
          simp only [Option.some.injEq] at h1
          subst h1
          refine ⟨(kx, ax) :: (ky, ay) :: s, ?_, List.Perm.swap (kx, ax) (ky, ay) s⟩
          rw [mapPairsOption, hfx, mapPairsOption, hfy, hl]
  | trans h12 h23 ih12 ih23 =>
    intro r1 h1
    obtain ⟨r2, h2, p12⟩ := ih12 h1
    obtain ⟨r3, h3, p23⟩ := ih23 h2
    exact ⟨r3, h3, p12.trans p23⟩

/-- Claim C1: encoding omits the key of every absent optional field on
`Resource`, `Relationship`, `DocumentData`, `DocumentError` and
`JsonApiError` alike, with the single exception that a `data` field set to
`PrimaryData.None` always emits the pair `"data": null`, while a never-set
`data` field emits no `data` key at all. -/
theorem c1_optional_field_omission :
    (∀ r : Resource,
      (("id" ∈ objKeys (encodeResource r)) ↔ r.id.isSome) ∧
      (("relationships" ∈ objKeys (encodeResource r)) ↔ r.relationships.isSome) ∧
      (("links" ∈ objKeys (encodeResource r)) ↔ r.links.isSome) ∧
      (("meta" ∈ objKeys (encodeResource r)) ↔ r.meta.isSome)) ∧
    (∀ rel : Relationship,
      (("data" ∈ objKeys (encodeRelationship rel)) ↔ rel.data.isSome) ∧
      (("links" ∈ objKeys (encodeRelationship rel)) ↔ rel.links.isSome)) ∧
    (∀ d : DocumentData,
      (("data" ∈ objKeys (encodeDocumentData d)) ↔ d.data.isSome) ∧
      (("included" ∈ objKeys (encodeDocumentData d)) ↔ d.included.isSome) ∧
      (("links" ∈ objKeys (encodeDocumentData d)) ↔ d.links.isSome) ∧
      (("meta" ∈ objKeys (encodeDocumentData d)) ↔ d.meta.isSome) ∧
      (("jsonapi" ∈ objKeys (encodeDocumentData d)) ↔ d.jsonapi.isSome) ∧
      (d.data = some PrimaryData.None → ("data", JsonValue.null) ∈ documentDataEntries d)) ∧
    (∀ e : DocumentError,
      (("links" ∈ objKeys (encodeDocumentError e)) ↔ e.links.isSome) ∧
      (("meta" ∈ objKeys (encodeDocumentError e)) ↔ e.meta.isSome) ∧
      (("jsonapi" ∈ objKeys (encodeDocumentError e)) ↔ e.jsonapi.isSome)) ∧
    (∀ e : JsonApiError,
      (("id" ∈ objKeys (encodeJsonApiError e)) ↔ e.id.isSome) ∧
      (("links" ∈ objKeys (encodeJsonApiError e)) ↔ e.links.isSome) ∧
      (("status" ∈ objKeys (encodeJsonApiError e)) ↔ e.status.isSome) ∧
      (("code" ∈ objKeys (encodeJsonApiError e)) ↔ e.code.isSome) ∧
      (("title" ∈ objKeys (encodeJsonApiError e)) ↔ e.title.isSome) ∧
      (("detail" ∈ objKeys (encodeJsonApiError e)) ↔ e.detail.isSome) ∧
      (("source" ∈ objKeys (encodeJsonApiError e)) ↔ e.source.isSome) ∧
      (("meta" ∈ objKeys (encodeJsonApiError e)) ↔ e.meta.isSome)) := by
  refine ⟨?_, ?_, ?_, ?_, ?_⟩
  · rintro ⟨t, id, attrs, rels, lks, mt⟩
    cases id <;> cases rels <;> cases lks <;> cases mt <;>
      simp [encodeResource, optField, objKeys]
  · rintro ⟨d, lks⟩
    cases d <;> cases lks <;> simp [encodeRelationship, optField, objKeys]
  · rintro ⟨dat, inc, lks, mt, ja⟩
    cases dat <;> cases inc <;> cases lks <;> cases mt <;> cases ja <;>
      simp [encodeDocumentData, documentDataEntries, optField, objKeys, encodePrimaryData] <;>
      rintro rfl <;> rfl
  · rintro ⟨errs, lks, mt, ja⟩
    cases lks <;> cases mt <;> cases ja <;>
      simp [encodeDocumentError, documentErrorEntries, optField, objKeys]
  · rintro ⟨id, lks, st, cd, ti, de, src, mt⟩
    cases id <;> cases lks <;> cases st <;> cases cd <;> cases ti <;> cases de <;>
      cases src <;> cases mt <;> simp [encodeJsonApiError, jsonApiErrorEntries, optField, objKeys]

/-- Witness for claim C1 at a concrete document whose data is
`PrimaryData.None`. -/
theorem c1_optional_field_omission_witness :
    ("data", JsonValue.null) ∈ documentDataEntries
      { data := some PrimaryData.None, included := none, links := none, meta := none,
        jsonapi := none } :=
  (c1_optional_field_omission.2.2.1 _).2.2.2.2.2 rfl

/-- Claim C2: `validate` is a pure total function returning violations as
data: with `data` present (any variant) and `included` absent it reports
no violations; with `data` absent and `included` present the returned set
contains `IncludedWithoutData` and, every rule being evaluated
independently rather than short-circuited, also `MissingContent`; with
both absent it contains `MissingContent`. -/
theorem c2_validate_totality :
    ∀ d : DocumentData,
      (d.data.isSome → d.included = none → d.validate = none) ∧
      (d.data = none → d.included.isSome →
        ∃ errs, d.validate = some errs ∧
          DocumentValidationError.IncludedWithoutData ∈ errs ∧
          DocumentValidationError.MissingContent ∈ errs) ∧
      (d.data = none → d.included = none →
        ∃ errs, d.validate = some errs ∧ DocumentValidationError.MissingContent ∈ errs) := by
  rintro ⟨dat, inc, lks, mt, ja⟩
  refine ⟨?_, ?_, ?_⟩ <;> cases dat <;> cases inc <;> simp [DocumentData.validate]

/-- Witness for claim C2 at a concrete document with `included` present
and `data` absent. -/
theorem c2_validate_totality_witness :
    ∃ errs, DocumentData.validate
      { data := none, included := some [], links := none, meta := none, jsonapi := none } =
        some errs ∧
      DocumentValidationError.IncludedWithoutData ∈ errs ∧
      DocumentValidationError.MissingContent ∈ errs :=
  (c2_validate_totality _).2.1 rfl rfl

/-- Claim C3: `diff` is deterministic (two calls on the same arguments
return the identical patch sequence — immediate in this pure embedding),
`diff a a` is the empty patch set for a resource whose attribute and
relationship keys are unique, and two resources with the same attribute
keys, identical relationships and exactly one differing attribute value
diff to exactly one `AttributeChanged` patch. -/
theorem c3_diff_determinism_idempotence :
    (∀ a b : Resource, Resource.diff a b = Resource.diff a b) ∧
    (∀ a : Resource, (a.attributes.map Prod.fst).Nodup →
      ((relationshipDataEntries a.relationships).map Prod.fst).Nodup →
      Resource.diff a a = Except.ok ⟨[]⟩) ∧
    (∀ a b : Resource, ∀ po pn : String × JsonValue,
      a.attributes.map Prod.fst = b.attributes.map Prod.fst →
      (a.attributes.map Prod.fst).Nodup →
      a.relationships = b.relationships →
      ((relationshipDataEntries a.relationships).map Prod.fst).Nodup →
      (a.attributes.zip b.attributes).filter
        (fun q => decide ¬(q.1.2 = q.2.2)) = [(po, pn)] →
      Resource.diff a b = Except.ok ⟨[Patch.AttributeChanged po.1 po.2 pn.2]⟩) := by
  refine ⟨fun a b => rfl, ?_, ?_⟩
  · intro a h1 h2
    unfold Resource.diff
    rw [symmetricKeyDiff_self _ _ _ _ h1, symmetricKeyDiff_self _ _ _ _ h2]
    rfl
  · intro a b po pn hkeys hnd hrel hndr hchg
    unfold Resource.diff
    rw [← hrel, symmetricKeyDiff_self _ _ _ _ hndr,
      symmetricKeyDiff_eq_of_keys_eq _ _ _ _ _ hkeys hnd,
      filterMap_ite_eq_filter_map
        (fun q : (String × JsonValue) × String × JsonValue => q.1.2 = q.2.2)
        (fun q : (String × JsonValue) × String × JsonValue =>
          Patch.AttributeChanged q.1.1 q.1.2 q.2.2), hchg]
    simp

/-- Witness for claim C3 on concrete one-attribute resources. -/
theorem c3_diff_determinism_idempotence_witness :
    Resource.diff
      { _type := "posts", id := some "1", attributes := [("t", JsonValue.str "x")],
        relationships := none, links := none, meta := none }
      { _type := "posts", id := some "1", attributes := [("t", JsonValue.str "x")],
        relationships := none, links := none, meta := none } = Except.ok ⟨[]⟩ ∧
    Resource.diff
      { _type := "posts", id := some "1", attributes := [("t", JsonValue.str "x")],
        relationships := none, links := none, meta := none }
      { _type := "posts", id := some "1", attributes := [("t", JsonValue.str "y")],
        relationships := none, links := none, meta := none } =
      Except.ok ⟨[Patch.AttributeChanged "t" (JsonValue.str "x") (JsonValue.str "y")]⟩ :=
  ⟨c3_diff_determinism_idempotence.2.1 _ (by decide) (by decide),
    c3_diff_determinism_idempotence.2.2 _ _ ("t", JsonValue.str "x") ("t", JsonValue.str "y") rfl (by decide) rfl
      (by decide) (by decide)⟩

/-- Claim C4: with identical relationships, old attribute keys `{a, b}`,
new attribute keys `{b, c}` and the value at `b` changed, `diff` yields
exactly the three patches `AttributeRemoved a`, `AttributeChanged b`,
`AttributeAdded c`, in the deterministic first-seen-in-old-then-new
order. -/
theorem c4_diff_symmetric_cardinality :
    ∀ a b : Resource, ∀ ka kb kc : String, ∀ va vb vb2 vc : JsonValue,
      a.attributes = [(ka, va), (kb, vb)] →
      b.attributes = [(kb, vb2), (kc, vc)] →
      ka ≠ kb → ka ≠ kc → kb ≠ kc → vb ≠ vb2 →
      a.relationships = b.relationships →
      ((relationshipDataEntries a.relationships).map Prod.fst).Nodup →
      Resource.diff a b = Except.ok ⟨[Patch.AttributeRemoved ka va,
        Patch.AttributeChanged kb vb vb2, Patch.AttributeAdded kc vc]⟩ := by
  intro a b ka kb kc va vb vb2 vc ha hb hab hac hbc hv hrel hndr
  unfold Resource.diff
  rw [← hrel, symmetricKeyDiff_self _ _ _ _ hndr, ha, hb]
  simp [symmetricKeyDiff, lookupKey, Ne.symm hab, Ne.symm hac, Ne.symm hbc, hab, hac, hbc, hv]

/-- Witness for claim C4 on concrete two-attribute resources. -/
theorem c4_diff_symmetric_cardinality_witness :
    Resource.diff
      { _type := "posts", id := none, attributes := [("a", JsonValue.num 1), ("b", JsonValue.num 2)],
        relationships := none, links := none, meta := none }
      { _type := "posts", id := none, attributes := [("b", JsonValue.num 3), ("c", JsonValue.num 4)],
        relationships := none, links := none, meta := none } =
      Except.ok ⟨[Patch.AttributeRemoved "a" (JsonValue.num 1),
        Patch.AttributeChanged "b" (JsonValue.num 2) (JsonValue.num 3),
        Patch.AttributeAdded "c" (JsonValue.num 4)]⟩ :=
  c4_diff_symmetric_cardinality _ _ "a" "b" "c" (JsonValue.num 1) (JsonValue.num 2) (JsonValue.num 3) (JsonValue.num 4)
    rfl rfl (by decide) (by decide) (by decide) (by decide) rfl (by decide)

theorem mapEquiv_refl {β : Type} (l : List (String × β)) : mapEquiv l l :=
  fun _ => rfl

theorem optMapEquiv_refl {β : Type} : ∀ o : Option (List (String × β)), optMapEquiv o o
  | none => trivial
  | some l => mapEquiv_refl l

theorem resource_eqv_refl (r : Resource) : Resource.eqv r r :=
  ⟨rfl, rfl, mapEquiv_refl _, optMapEquiv_refl _, optMapEquiv_refl _, optMapEquiv_refl _⟩

theorem forall₂_resource_eqv_refl : ∀ rs : Resources, List.Forall₂ Resource.eqv rs rs
  | [] => List.Forall₂.nil
  | r :: t => List.Forall₂.cons (resource_eqv_refl r) (forall₂_resource_eqv_refl t)

theorem primaryData_eqv_refl : ∀ pd : PrimaryData, PrimaryData.eqv pd pd
  | .None => trivial
  | .Single r => resource_eqv_refl r
  | .Multiple rs => forall₂_resource_eqv_refl rs
  | .SingleTemplate _ => rfl
  | .MultipleTemplates _ => rfl

theorem lookupKey_forall₂ {R : (String × JsonValue) → (String × JsonValue) → Prop}
    (hfst : ∀ p q, R p q → p.1 = q.1) :
    ∀ {l1 l2 : List (String × JsonValue)}, List.Forall₂ R l1 l2 → ∀ k : String,
      (lookupKey k l1 = none ∧ lookupKey k l2 = none) ∨
      (∃ v1 v2, lookupKey k l1 = some v1 ∧ lookupKey k l2 = some v2 ∧
        R (k, v1) (k, v2)) := by
  intro l1 l2 hf
  induction hf with
  | nil => intro k; exact Or.inl ⟨rfl, rfl⟩
  | @cons p q t1 t2 hR htail ih =>
    obtain ⟨p1, p2⟩ := p
    obtain ⟨q1, q2⟩ := q
    have hq1 : p1 = q1 := hfst _ _ hR
    subst hq1
    intro k
    by_cases hp : p1 = k
    · subst hp
      exact Or.inr ⟨p2, q2, by simp [lookupKey], by simp [lookupKey], hR⟩
    · rcases ih k with ⟨ha, hb⟩ | ⟨v1, v2, ha, hb, hr⟩
      · exact Or.inl ⟨by simp [lookupKey, hp, ha], by simp [lookupKey, hp, hb]⟩
      · exact Or.inr ⟨v1, v2, by simp [lookupKey, hp, ha], by simp [lookupKey, hp, hb], hr⟩

theorem decodeResource_obj_inv {l : List (String × JsonValue)} {x : Resource}
    (h : decodeResource (JsonValue.obj l) = some x) :
    lookupKey "type" l = some (JsonValue.str x._type) ∧
    optStringField (lookupKey "id" l) = some x.id ∧
    attributesField (lookupKey "attributes" l) = some x.attributes ∧
    optRelationshipsField (lookupKey "relationships" l) = some x.relationships ∧
    optObjField (lookupKey "links" l) = some x.links ∧
    optObjField (lookupKey "meta" l) = some x.meta := by
  simp only [decodeResource] at h
  cases hT : lookupKey "type" l with
  | none => rw [hT] at h; simp at h
  | some vt =>
    rw [hT] at h
    cases vt with
    | null => simp at h
    | bool b => simp at h
    | num n => simp at h
    | arr items => simp at h
    | obj entries => simp at h
    | str t =>
      cases hI : optStringField (lookupKey "id" l) with
      | none => rw [hI] at h; simp at h
      | some oid =>
        rw [hI] at h
        cases hA : attributesField (lookupKey "attributes" l) with
        | none => rw [hA] at h; simp at h
        | some attrs =>
          rw [hA] at h
          cases hR : optRelationshipsField (lookupKey "relationships" l) with
          | none => rw [hR] at h; simp at h
          | some rels =>
            rw [hR] at h
            cases hL : optObjField (lookupKey "links" l) with
            | none => rw [hL] at h; simp at h
            | some lk =>
              rw [hL] at h
              cases hM : optObjField (lookupKey "meta" l) with
              | none => rw [hM] at h; simp at h
              | some mt =>
                rw [hM] at h
                simp only [Option.some_bind, Option.some.injEq] at h
                subst h
                exact ⟨rfl, rfl, rfl, rfl, rfl, rfl⟩

theorem decodeResource_order_independent {l1 l2 : List (String × JsonValue)}
    {x1 x2 : Resource} (hsim : List.Forall₂ resourceEntrySim l1 l2)
    (h1 : decodeResource (JsonValue.obj l1) = some x1)
    (h2 : decodeResource (JsonValue.obj l2) = some x2) :
    Resource.eqv x1 x2 := by
  obtain ⟨hT1, hI1, hA1, hR1, hL1, hM1⟩ := decodeResource_obj_inv h1
  obtain ⟨hT2, hI2, hA2, hR2, hL2, hM2⟩ := decodeResource_obj_inv h2
  have hk := lookupKey_forall₂ (fun p q hpq => hpq.1) hsim
  have hEq : ∀ k : String, ¬ k = "attributes" → ¬ k = "relationships" →
      lookupKey k l1 = lookupKey k l2 := by
    intro k hka hkr
    rcases hk k with ⟨ha, hb⟩ | ⟨v1, v2, ha, hb, hr⟩
    · rw [ha, hb]
    · rcases hr.2 with heq | ⟨hkey, _⟩
      · have heqv : v1 = v2 := heq
        rw [ha, hb, heqv]
      · rcases hkey with hkey | hkey
        · exact absurd (show k = "attributes" from hkey) hka
        · exact absurd (show k = "relationships" from hkey) hkr
  have htype : x1._type = x2._type := by
    have hx := hEq "type" (by decide) (by decide)
    rw [hT1, hT2] at hx
    simpa using hx
  have hid : x1.id = x2.id := by
    have hx := hEq "id" (by decide) (by decide)
    rw [hx] at hI1
    rw [hI1] at hI2
    exact Option.some.inj hI2
  have hlinks : x1.links = x2.links := by
    have hx := hEq "links" (by decide) (by decide)
    rw [hx] at hL1
    rw [hL1] at hL2
    exact Option.some.inj hL2
  have hmeta : x1.meta = x2.meta := by
    have hx := hEq "meta" (by decide) (by decide)
    rw [hx] at hM1
    rw [hM1] at hM2
    exact Option.some.inj hM2
  have hattrs : mapEquiv x1.attributes x2.attributes := by
    rcases hk "attributes" with ⟨ha, hb⟩ | ⟨v1, v2, ha, hb, hr⟩
    · rw [ha] at hA1
      rw [hb] at hA2
      simp only [attributesField, Option.some.injEq] at hA1 hA2
      rw [← hA1, ← hA2]
      exact mapEquiv_refl []
    · rcases hr.2 with heq | ⟨_, hperm⟩
      · have heqv : v1 = v2 := heq
        rw [ha] at hA1
        rw [hb, ← heqv] at hA2
        rw [hA1] at hA2
        rw [Option.some.inj hA2]
        exact mapEquiv_refl x2.attributes
      · obtain ⟨e1, e2, hv1, hv2, hp, hnd⟩ := hperm
        have hv1v : v1 = JsonValue.obj e1 := hv1
        have hv2v : v2 = JsonValue.obj e2 := hv2
        rw [ha, hv1v] at hA1
        rw [hb, hv2v] at hA2
        simp only [attributesField, Option.some.injEq] at hA1 hA2
        rw [← hA1, ← hA2]
        exact fun k => lookupKey_eq_of_perm hp hnd k
  have hrels : optMapEquiv x1.relationships x2.relationships := by
    rcases hk "relationships" with ⟨ha, hb⟩ | ⟨v1, v2, ha, hb, hr⟩
    · rw [ha] at hR1
      rw [hb] at hR2
      simp only [optRelationshipsField, Option.some.injEq] at hR1 hR2
      rw [← hR1, ← hR2]
      trivial
    · rcases hr.2 with heq | ⟨_, hperm⟩
      · have heqv : v1 = v2 := heq
        rw [ha] at hR1
        rw [hb, ← heqv] at hR2
        rw [hR1] at hR2
        rw [Option.some.inj hR2]
        exact optMapEquiv_refl x2.relationships
      · obtain ⟨e1, e2, hv1, hv2, hp, hnd⟩ := hperm
        have hv1v : v1 = JsonValue.obj e1 := hv1
        have hv2v : v2 = JsonValue.obj e2 := hv2
        rw [ha, hv1v] at hR1
        rw [hb, hv2v] at hR2
        cases hm1 : mapPairsOption decodeRelationship e1 with
        | none => simp [optRelationshipsField, hm1] at hR1
        | some rr1 =>
          cases hm2 : mapPairsOption decodeRelationship e2 with
          | none => simp [optRelationshipsField, hm2] at hR2
          | some rr2 =>
            simp only [optRelationshipsField, hm1, Option.map_some',
              Option.some.injEq] at hR1
            simp only [optRelationshipsField, hm2, Option.map_some',
              Option.some.injEq] at hR2
            rw [← hR1, ← hR2]
            obtain ⟨rr2', hm2', hpr⟩ := mapPairsOption_perm decodeRelationship hp hm1
            have hrr : rr2' = rr2 := Option.some.inj (hm2'.symm.trans hm2)
            subst hrr
            have hkeys : (rr1.map Prod.fst).Nodup := by
              rw [mapPairsOption_keys decodeRelationship hm1]
              exact hnd
            exact fun k => lookupKey_eq_of_perm hpr hkeys k
  refine ⟨htype, hid, hattrs, hrels, ?_, ?_⟩
  · rw [hlinks]
    exact optMapEquiv_refl x2.links
  · rw [hmeta]
    exact optMapEquiv_refl x2.meta

theorem mapOption_forall₂ {α : Type} {f : JsonValue → Option α}
    {R : JsonValue → JsonValue → Prop} {S : α → α → Prop}
    (hstep : ∀ v1 v2 x1 x2, R v1 v2 → f v1 = some x1 → f v2 = some x2 → S x1 x2)
    {vs1 vs2 : List JsonValue} (hf : List.Forall₂ R vs1 vs2) :
    ∀ {rs1 rs2 : List α}, mapOption f vs1 = some rs1 → mapOption f vs2 = some rs2 →
      List.Forall₂ S rs1 rs2 := by
  induction hf with
  | nil =>
    intro rs1 rs2 h1 h2
    simp only [mapOption, Option.some.injEq] at h1 h2
    subst h1
    subst h2
    exact List.Forall₂.nil
  | @cons v1 v2 t1 t2 hR htail ih =>
    intro rs1 rs2 h1 h2
    cases hf1 : f v1 with
    | none => rw [mapOption, hf1] at h1; exact absurd h1 (by simp)
    | some x1 =>
      cases ht1 : mapOption f t1 with
      | none => rw [mapOption, hf1, ht1] at h1; exact absurd h1 (by simp)
      | some xs1 =>
        rw [mapOption, hf1, ht1] at h1
        cases hf2 : f v2 with
        | none => rw [mapOption, hf2] at h2; exact absurd h2 (by simp)
        | some x2 =>
          cases ht2 : mapOption f t2 with
          | none => rw [mapOption, hf2, ht2] at h2; exact absurd h2 (by simp)
          | some xs2 =>
            rw [mapOption, hf2, ht2] at h2
            simp only [Option.some.injEq] at h1 h2
            subst h1
            subst h2
            exact List.Forall₂.cons (hstep _ _ _ _ hR hf1 hf2) (ih ht1 ht2)

theorem decodeDocumentError_congr {l1 l2 : List (String × JsonValue)}
    (he : lookupKey "errors" l1 = lookupKey "errors" l2)
    (hl : lookupKey "links" l1 = lookupKey "links" l2)
    (hm : lookupKey "meta" l1 = lookupKey "meta" l2)
    (hj : lookupKey "jsonapi" l1 = lookupKey "jsonapi" l2) :
    decodeDocumentError l1 = decodeDocumentError l2 := by
  unfold decodeDocumentError
  rw [he, hl, hm, hj]

theorem decodeDocumentData_eq (l : List (String × JsonValue)) :
    decodeDocumentData l =
      (dataField (lookupKey "data" l)).bind fun d =>
      (includedField (lookupKey "included" l)).bind fun inc =>
      (optObjField (lookupKey "links" l)).bind fun lk =>
      (optObjField (lookupKey "meta" l)).bind fun mt =>
      (optJsonApiInfoField (lookupKey "jsonapi" l)).bind fun ja =>
      some ⟨d, inc, lk, mt, ja⟩ := rfl

theorem decodeDocumentData_inv {l : List (String × JsonValue)} {dd : DocumentData}
    (h : decodeDocumentData l = some dd) :
    dataField (lookupKey "data" l) = some dd.data ∧
    includedField (lookupKey "included" l) = some dd.included ∧
    optObjField (lookupKey "links" l) = some dd.links ∧
    optObjField (lookupKey "meta" l) = some dd.meta ∧
    optJsonApiInfoField (lookupKey "jsonapi" l) = some dd.jsonapi := by
  rw [decodeDocumentData_eq] at h
  cases hA : dataField (lookupKey "data" l) with
  | none => rw [hA] at h; simp at h
  | some d =>
    rw [hA] at h
    cases hB : includedField (lookupKey "included" l) with
    | none => rw [hB] at h; simp at h
    | some inc =>
      rw [hB] at h
      cases hC : optObjField (lookupKey "links" l) with
      | none => rw [hC] at h; simp at h
      | some lk =>
        rw [hC] at h
        cases hD : optObjField (lookupKey "meta" l) with
        | none => rw [hD] at h; simp at h
        | some mt =>
          rw [hD] at h
          cases hE : optJsonApiInfoField (lookupKey "jsonapi" l) with
          | none => rw [hE] at h; simp at h
          | some ja =>
            rw [hE] at h
            simp only [Option.some_bind, Option.some.injEq] at h
            subst h
            exact ⟨rfl, rfl, rfl, rfl, rfl⟩

theorem decodeDocument_obj_inv {l : List (String × JsonValue)} {d : JsonApiDocument}
    (h : decodeDocument (JsonValue.obj l) = some d) :
    ((lookupKey "errors" l).isSome = true ∧
      ∃ e, decodeDocumentError l = some e ∧ d = JsonApiDocument.Error e) ∨
    (lookupKey "errors" l = none ∧ (lookupKey "data" l).isSome = true ∧
      ∃ dd, decodeDocumentData l = some dd ∧ d = JsonApiDocument.Data dd) := by
  simp only [decodeDocument] at h
  by_cases he : (lookupKey "errors" l).isSome
  · rw [if_pos he] at h
    cases hde : decodeDocumentError l with
    | none => rw [hde] at h; simp at h
    | some e =>
      rw [hde] at h
      simp only [Option.map_some', Option.some.injEq] at h
      exact Or.inl ⟨he, e, rfl, h.symm⟩
  · rw [if_neg he] at h
    by_cases hd : (lookupKey "data" l).isSome
    · rw [if_pos hd] at h
      cases hdd : decodeDocumentData l with
      | none => rw [hdd] at h; simp at h
      | some dd =>
        rw [hdd] at h
        simp only [Option.map_some', Option.some.injEq] at h
        exact Or.inr ⟨Option.not_isSome_iff_eq_none.mp he, hd, dd, rfl, h.symm⟩
    · rw [if_neg hd] at h
      exact absurd h (by simp)

theorem optionRel_refl {α : Type} {R : α → α → Prop} (hR : ∀ a, R a a) :
    ∀ o : Option α, optionRel R o o
  | none => trivial
  | some a => hR a

theorem decodeDocument_order_independent {l1 l2 : List (String × JsonValue)}
    {d1 d2 : JsonApiDocument} (hsim : List.Forall₂ documentEntrySim l1 l2)
    (h1 : decodeDocument (JsonValue.obj l1) = some d1)
    (h2 : decodeDocument (JsonValue.obj l2) = some d2) :
    JsonApiDocument.eqv d1 d2 := by
  have hk := lookupKey_forall₂ (fun p q hpq => hpq.1) hsim
  have hEq : ∀ k : String, ¬ k = "data" → ¬ k = "included" →
      lookupKey k l1 = lookupKey k l2 := by
    intro k hkd hki
    rcases hk k with ⟨ha, hb⟩ | ⟨v1, v2, ha, hb, hr⟩
    · rw [ha, hb]
    · rcases hr.2 with heq | ⟨hkey, _⟩ | ⟨hkey, _⟩
      · have heqv : v1 = v2 := heq
        rw [ha, hb, heqv]
      · exact absurd (show k = "data" from hkey) hkd
      · exact absurd (show k = "included" from hkey) hki
  have herr := hEq "errors" (by decide) (by decide)
  rcases decodeDocument_obj_inv h1 with ⟨he1, e1, hde1, rfl⟩ | ⟨he1, hd1, dd1, hdd1, rfl⟩
  · rcases decodeDocument_obj_inv h2 with ⟨he2, e2, hde2, rfl⟩ | ⟨he2, _, _, _, _⟩
    · have hcong := decodeDocumentError_congr herr (hEq "links" (by decide) (by decide))
        (hEq "meta" (by decide) (by decide)) (hEq "jsonapi" (by decide) (by decide))
      rw [hde1, hde2] at hcong
      have he : e1 = e2 := Option.some.inj hcong
      subst he
      exact ⟨rfl, optMapEquiv_refl _, optMapEquiv_refl _, rfl⟩
    · rw [herr, he2] at he1
      simp at he1
  · rcases decodeDocument_obj_inv h2 with ⟨he2, _, _, _⟩ | ⟨he2, hd2, dd2, hdd2, rfl⟩
    · rw [← herr, he1] at he2
      simp at he2
    · obtain ⟨hdat1, hinc1, hl1e, hm1e, hj1e⟩ := decodeDocumentData_inv hdd1
      obtain ⟨hdat2, hinc2, hl2e, hm2e, hj2e⟩ := decodeDocumentData_inv hdd2
      refine ⟨?_, ?_, ?_, ?_, ?_⟩
      · rcases hk "data" with ⟨ha, hb⟩ | ⟨v1, v2, ha, hb, hr⟩
        · rw [ha] at hdat1
          rw [hb] at hdat2
          simp only [dataField, Option.some.injEq] at hdat1 hdat2
          rw [← hdat1, ← hdat2]
          trivial
        · rcases hr.2 with heq | ⟨_, hsd⟩ | ⟨hkey, _⟩
          · have heqv : v1 = v2 := heq
            rw [ha, heqv] at hdat1
            rw [hb] at hdat2
            rw [hdat1] at hdat2
            rw [Option.some.inj hdat2]
            exact optionRel_refl primaryData_eqv_refl dd2.data
          · rw [ha] at hdat1
            rw [hb] at hdat2
            simp only [dataField] at hdat1 hdat2
            rcases hsd with hobj | harr
            · obtain ⟨e1, e2, hv1, hv2, hforall⟩ := hobj
              have hv1v : v1 = JsonValue.obj e1 := hv1
              have hv2v : v2 = JsonValue.obj e2 := hv2
              rw [hv1v] at hdat1
              rw [hv2v] at hdat2
              simp only [decodePrimaryData] at hdat1 hdat2
              cases hr1 : decodeResource (JsonValue.obj e1) with
              | none => rw [hr1] at hdat1; simp at hdat1
              | some r1 =>
                rw [hr1] at hdat1
                cases hr2 : decodeResource (JsonValue.obj e2) with
                | none => rw [hr2] at hdat2; simp at hdat2
                | some r2 =>
                  rw [hr2] at hdat2
                  simp only [Option.map_some', Option.some.injEq] at hdat1 hdat2
                  rw [← hdat1, ← hdat2]
                  exact decodeResource_order_independent hforall hr1 hr2
            · obtain ⟨vs1, vs2, hv1, hv2, hforall⟩ := harr
              have hv1v : v1 = JsonValue.arr vs1 := hv1
              have hv2v : v2 = JsonValue.arr vs2 := hv2
              rw [hv1v] at hdat1
              rw [hv2v] at hdat2
              simp only [decodePrimaryData] at hdat1 hdat2
              cases hmo1 : mapOption decodeResource vs1 with
              | none => rw [hmo1] at hdat1; simp at hdat1
              | some rs1 =>
                rw [hmo1] at hdat1
                cases hmo2 : mapOption decodeResource vs2 with
                | none => rw [hmo2] at hdat2; simp at hdat2
                | some rs2 =>
                  rw [hmo2] at hdat2
                  simp only [Option.map_some', Option.some.injEq] at hdat1 hdat2
                  rw [← hdat1, ← hdat2]
                  exact mapOption_forall₂ (fun a b x y hab hx hy => by
                    obtain ⟨ea, eb, hea, heb, hf⟩ := hab
                    subst hea
                    subst heb
                    exact decodeResource_order_independent hf hx hy) hforall hmo1 hmo2
          · exact absurd (show "data" = "included" from hkey) (by decide)
      · rcases hk "included" with ⟨ha, hb⟩ | ⟨v1, v2, ha, hb, hr⟩
        · rw [ha] at hinc1
          rw [hb] at hinc2
          simp only [includedField, Option.some.injEq] at hinc1 hinc2
          rw [← hinc1, ← hinc2]
          trivial
        · rcases hr.2 with heq | ⟨hkey, _⟩ | ⟨_, harr⟩
          · have heqv : v1 = v2 := heq
            rw [ha, heqv] at hinc1
            rw [hb] at hinc2
            rw [hinc1] at hinc2
            rw [Option.some.inj hinc2]
            exact optionRel_refl forall₂_resource_eqv_refl dd2.included
          · exact absurd (show "included" = "data" from hkey) (by decide)
          · obtain ⟨vs1, vs2, hv1, hv2, hforall⟩ := harr
            have hv1v : v1 = JsonValue.arr vs1 := hv1
            have hv2v : v2 = JsonValue.arr vs2 := hv2
            rw [ha, hv1v] at hinc1
            rw [hb, hv2v] at hinc2
            simp only [includedField] at hinc1 hinc2
            cases hmo1 : mapOption decodeResource vs1 with
            | none => rw [hmo1] at hinc1; simp at hinc1
            | some rs1 =>
              rw [hmo1] at hinc1
              cases hmo2 : mapOption decodeResource vs2 with
              | none => rw [hmo2] at hinc2; simp at hinc2
              | some rs2 =>
                rw [hmo2] at hinc2
                simp only [Option.map_some', Option.some.injEq] at hinc1 hinc2
                rw [← hinc1, ← hinc2]
                exact mapOption_forall₂ (fun a b x y hab hx hy => by
                  obtain ⟨ea, eb, hea, heb, hf⟩ := hab
                  subst hea
                  subst heb
                  exact decodeResource_order_independent hf hx hy) hforall hmo1 hmo2
      · have hx := hEq "links" (by decide) (by decide)
        rw [hx] at hl1e
        rw [hl1e] at hl2e
        rw [Option.some.inj hl2e]
        exact optMapEquiv_refl _
      · have hx := hEq "meta" (by decide) (by decide)
        rw [hx] at hm1e
        rw [hm1e] at hm2e
        rw [Option.some.inj hm2e]
        exact optMapEquiv_refl _
      · have hx := hEq "jsonapi" (by decide) (by decide)
        rw [hx] at hj1e
        rw [hj1e] at hj2e
        exact Option.some.inj hj2e

/-- Claim C5: two JSON texts that differ only in the order of object keys
within `attributes` or `relationships` objects (`resourceEntrySim` /
`documentEntrySim`, with the map unique-key invariant on the reordered
objects) decode to resources that compare equal under the structural,
insertion-order-independent resource equality `Resource.eqv`, and to
documents containing them that compare equal under the corresponding
document equality `JsonApiDocument.eqv`. -/
theorem c5_decode_order_independence :
    (∀ (l1 l2 : List (String × JsonValue)) (x1 x2 : Resource),
      List.Forall₂ resourceEntrySim l1 l2 →
      decodeResource (JsonValue.obj l1) = some x1 →
      decodeResource (JsonValue.obj l2) = some x2 →
      Resource.eqv x1 x2) ∧
    (∀ (l1 l2 : List (String × JsonValue)) (d1 d2 : JsonApiDocument),
      List.Forall₂ documentEntrySim l1 l2 →
      decodeDocument (JsonValue.obj l1) = some d1 →
      decodeDocument (JsonValue.obj l2) = some d2 →
      JsonApiDocument.eqv d1 d2) :=
  ⟨fun _ _ _ _ hs h1 h2 => decodeResource_order_independent hs h1 h2,
    fun _ _ _ _ hs h1 h2 => decodeDocument_order_independent hs h1 h2⟩

/-- Witness for claim C5 on two concrete resource texts — members `type`,
`id`, `attributes`, `relationships` and `links`, with the `attributes` and
`relationships` members reordered — and on the two documents wrapping them
as single primary data. -/
theorem c5_decode_order_independence_witness :
    Resource.eqv
      { _type := "posts", id := some "1"
        attributes := [("title", JsonValue.str "Rails is Omakase"),
          ("likes", JsonValue.num 250)]
        relationships := some [("author",
          { data := some IdentifierData.None, links := none }),
          ("tags", { data := none, links := none })]
        links := some [("self", JsonValue.str "/posts/1")]
        meta := none }
      { _type := "posts", id := some "1"
        attributes := [("likes", JsonValue.num 250),
          ("title", JsonValue.str "Rails is Omakase")]
        relationships := some [("tags", { data := none, links := none }),
          ("author", { data := some IdentifierData.None, links := none })]
        links := some [("self", JsonValue.str "/posts/1")]
        meta := none } ∧
    JsonApiDocument.eqv
      (JsonApiDocument.Data
        { data := some (PrimaryData.Single
            { _type := "posts", id := some "1"
              attributes := [("title", JsonValue.str "Rails is Omakase"),
                ("likes", JsonValue.num 250)]
              relationships := some [("author",
                { data := some IdentifierData.None, links := none }),
                ("tags", { data := none, links := none })]
              links := some [("self", JsonValue.str "/posts/1")]
              meta := none })
          included := none, links := none, meta := none, jsonapi := none })
      (JsonApiDocument.Data
        { data := some (PrimaryData.Single
            { _type := "posts", id := some "1"
              attributes := [("likes", JsonValue.num 250),
                ("title", JsonValue.str "Rails is Omakase")]
              relationships := some [("tags", { data := none, links := none }),
                ("author", { data := some IdentifierData.None, links := none })]
              links := some [("self", JsonValue.str "/posts/1")]
              meta := none })
          included := none, links := none, meta := none, jsonapi := none }) := by
  have hsim : List.Forall₂ resourceEntrySim
      [("type", JsonValue.str "posts"), ("id", JsonValue.str "1"),
        ("attributes", JsonValue.obj [("title", JsonValue.str "Rails is Omakase"),
          ("likes", JsonValue.num 250)]),
        ("relationships", JsonValue.obj [("author", JsonValue.obj [("data", JsonValue.null)]),
          ("tags", JsonValue.obj [])]),
        ("links", JsonValue.obj [("self", JsonValue.str "/posts/1")])]
      [("type", JsonValue.str "posts"), ("id", JsonValue.str "1"),
        ("attributes", JsonValue.obj [("likes", JsonValue.num 250),
          ("title", JsonValue.str "Rails is Omakase")]),
        ("relationships", JsonValue.obj [("tags", JsonValue.obj []),
          ("author", JsonValue.obj [("data", JsonValue.null)])]),
        ("links", JsonValue.obj [("self", JsonValue.str "/posts/1")])] := by
    refine List.Forall₂.cons ⟨rfl, Or.inl rfl⟩ ?_
    refine List.Forall₂.cons ⟨rfl, Or.inl rfl⟩ ?_
    refine List.Forall₂.cons ⟨rfl, Or.inr ⟨Or.inl rfl,
      ⟨_, _, rfl, rfl, by decide, by decide⟩⟩⟩ ?_
    refine List.Forall₂.cons ⟨rfl, Or.inr ⟨Or.inr rfl,
      ⟨_, _, rfl, rfl, by decide, by decide⟩⟩⟩ ?_
    exact List.Forall₂.cons ⟨rfl, Or.inl rfl⟩ List.Forall₂.nil
  constructor
  · exact c5_decode_order_independence.1 _ _ _ _ hsim rfl rfl
  · exact c5_decode_order_independence.2
      [("data", JsonValue.obj [("type", JsonValue.str "posts"), ("id", JsonValue.str "1"),
        ("attributes", JsonValue.obj [("title", JsonValue.str "Rails is Omakase"),
          ("likes", JsonValue.num 250)]),
        ("relationships", JsonValue.obj [("author", JsonValue.obj [("data", JsonValue.null)]),
          ("tags", JsonValue.obj [])]),
        ("links", JsonValue.obj [("self", JsonValue.str "/posts/1")])])]
      [("data", JsonValue.obj [("type", JsonValue.str "posts"), ("id", JsonValue.str "1"),
        ("attributes", JsonValue.obj [("likes", JsonValue.num 250),
          ("title", JsonValue.str "Rails is Omakase")]),
        ("relationships", JsonValue.obj [("tags", JsonValue.obj []),
          ("author", JsonValue.obj [("data", JsonValue.null)])]),
        ("links", JsonValue.obj [("self", JsonValue.str "/posts/1")])])]
      _ _ (List.Forall₂.cons ⟨rfl, Or.inr (Or.inl ⟨rfl, Or.inl ⟨_, _, rfl, rfl, hsim⟩⟩)⟩
        List.Forall₂.nil) rfl rfl













/-- Claim C6, counterexample: a Data document whose `data` field was never
set encodes to an object carrying neither `data` nor `errors`, which
decoding rejects as malformed; and a document carrying a template variant
decodes to the collapsed `Single` form, which is a different value. -/
theorem c6_round_trip_counterexample :
    decodeDocument (encodeDocument (JsonApiDocument.Data
      { data := none, included := none, links := none, meta := none, jsonapi := none })) =
      none ∧
    decodeDocument (encodeDocument (JsonApiDocument.Data
      { data := some (PrimaryData.SingleTemplate
          { _type := "books", attributes := [], relationships := none, links := none,
            meta := none })
        included := none, links := none, meta := none, jsonapi := none })) =
      some (JsonApiDocument.Data
        { data := some (PrimaryData.Single
            { _type := "books", id := none, attributes := [], relationships := none,
              links := none, meta := none })
          included := none, links := none, meta := none, jsonapi := none }) ∧
    JsonApiDocument.Data
        { data := some (PrimaryData.Single
            { _type := "books", id := none, attributes := [], relationships := none,
              links := none, meta := none })
          included := none, links := none, meta := none, jsonapi := none } ≠
      JsonApiDocument.Data
        { data := some (PrimaryData.SingleTemplate
            { _type := "books", attributes := [], relationships := none, links := none,
              meta := none })
          included := none, links := none, meta := none, jsonapi := none } :=
  ⟨rfl, rfl, by decide⟩

/-- Claim C6 (amended): for every document whose Data variant carries a
present, template-free `data` field (and every Error document), decoding
the encoding returns the document itself; moreover every resource — its
id included — survives `decodeResource` after `encodeResource`. -/
theorem c6_round_trip :
    (∀ d : JsonApiDocument, d.roundTrippable →
      decodeDocument (encodeDocument d) = some d) ∧
    (∀ r : Resource, decodeResource (encodeResource r) = some r) := by
  constructor
  · intro d hd
    cases d with
    | Data dd =>
      obtain ⟨pd, hpd, hfree⟩ := hd
      have h1 := lookupKey_documentDataEntries_errors dd
      have h2 := lookupKey_documentDataEntries_data dd pd hpd
      have h3 := decode_encode_document_data dd
        (fun q hq => by rw [hpd] at hq; cases hq; exact hfree)
      simp [encodeDocument, encodeDocumentData, decodeDocument, h1, h2, h3]
    | Error e =>
      have h1 : lookupKey "errors" (documentErrorEntries e) =
          some (JsonValue.arr (e.errors.map encodeJsonApiError)) := by
        simp [documentErrorEntries, lookupKey]
      simp [encodeDocument, encodeDocumentError, decodeDocument, h1,
        decode_encode_document_error e]
  · exact decode_encode_resource

/-- Witness for claim C6 at a concrete single-resource document. -/
theorem c6_round_trip_witness :
    decodeDocument (encodeDocument (JsonApiDocument.Data
      { data := some (PrimaryData.Single
          { _type := "test", id := some "123", attributes := [], relationships := none,
            links := none, meta := none })
        included := none, links := none, meta := none, jsonapi := none })) =
      some (JsonApiDocument.Data
        { data := some (PrimaryData.Single
            { _type := "test", id := some "123", attributes := [], relationships := none,
              links := none, meta := none })
          included := none, links := none, meta := none, jsonapi := none }) :=
  c6_round_trip.1 _ ⟨_, rfl, trivial⟩

/-- Claim C7: `build_has_one` returns a relationship whose data is
`Single identifier` and whose links field is empty, and `build_has_many`
one whose data is `Multiple identifiers`; both are pure constructors. -/
theorem c7_relationship_constructors :
    (∀ x : ResourceIdentifier, (build_has_one x).data = some (IdentifierData.Single x) ∧
      (build_has_one x).links = none) ∧
    (∀ xs : List ResourceIdentifier,
      (build_has_many xs).data = some (IdentifierData.Multiple xs) ∧
      (build_has_many xs).links = none) :=
  ⟨fun _ => ⟨rfl, rfl⟩, fun _ => ⟨rfl, rfl⟩⟩

/-- Claim C8: `from_jsonapi_document` returns Ok only when the document
data is a `SingleTemplate` or `MultipleTemplates`; absent data,
`PrimaryData.None`, `Single` and `Multiple` all produce the descriptive
error messages of the source, so a fully qualified resource document is
never read back through the template layer. -/
theorem c8_from_jsonapi_document_errors {α : Type} (T : JsonApiTemplate α) (doc : DocumentData) :
    (doc.data = none → from_jsonapi_document T doc = .error "Document had no data") ∧
    (doc.data = some PrimaryData.None →
      from_jsonapi_document T doc = .error "Document had no data") ∧
    (∀ r, doc.data = some (PrimaryData.Single r) →
      from_jsonapi_document T doc =
        .error "Document had no template but a fully qualified resource") ∧
    (∀ rs, doc.data = some (PrimaryData.Multiple rs) →
      from_jsonapi_document T doc =
        .error "Document had no templates but fully qualified resources") ∧
    (∀ x, from_jsonapi_document T doc = .ok x →
      (∃ t, doc.data = some (PrimaryData.SingleTemplate t)) ∨
        (∃ ts, doc.data = some (PrimaryData.MultipleTemplates ts))) := by
  refine ⟨?_, ?_, ?_, ?_, ?_⟩
  · intro h
    simp [from_jsonapi_document, h]
  · intro h
    simp [from_jsonapi_document, h]
  · intro r h
    simp [from_jsonapi_document, h]
  · intro rs h
    simp [from_jsonapi_document, h]
  · intro x h
    rcases hd : doc.data with _ | pd
    · rw [from_jsonapi_document, hd] at h
      exact absurd h (by simp)
    · cases pd with
      | None => rw [from_jsonapi_document, hd] at h; exact absurd h (by simp)
      | Single r => rw [from_jsonapi_document, hd] at h; exact absurd h (by simp)
      | Multiple rs => rw [from_jsonapi_document, hd] at h; exact absurd h (by simp)
      | SingleTemplate t => exact Or.inl ⟨t, rfl⟩
      | MultipleTemplates ts => exact Or.inr ⟨ts, rfl⟩

/-- Witness for claim C8 at a concrete data-less document. -/
theorem c8_from_jsonapi_document_errors_witness :
    from_jsonapi_document chiefTemplateExample
      { data := none, included := none, links := none, meta := none, jsonapi := none } =
      Except.error "Document had no data" :=
  (c8_from_jsonapi_document_errors chiefTemplateExample _).1 rfl

/-- Claim C9: `resource_template_to_attrs` returns the template's
attribute map at every key that is not a relationship name, and maps every
relationship name to that relationship's serialized data value
(`relationshipAttrValue`: the identifier, the identifier array, or null),
overwriting any same-named attribute. -/
theorem c9_resource_template_to_attrs_spec :
    ∀ t : ResourceTemplate,
      (t.relationships = none → resource_template_to_attrs t = t.attributes) ∧
      (∀ relations : Relationships, t.relationships = some relations →
        (∀ k, k ∉ relations.map Prod.fst →
          lookupKey k (resource_template_to_attrs t) = lookupKey k t.attributes) ∧
        ((relations.map Prod.fst).Nodup →
          ∀ k rel, (k, rel) ∈ relations →
            lookupKey k (resource_template_to_attrs t) = some (relationshipAttrValue rel))) := by
  intro t
  constructor
  · intro h
    simp [resource_template_to_attrs, h]
  · intro relations h
    constructor
    · intro k hk
      simp only [resource_template_to_attrs, h]
      exact lookupKey_foldl_mapInsert_not_mem relationshipAttrValue relations k hk _
    · intro hnd k rel hmem
      simp only [resource_template_to_attrs, h]
      exact lookupKey_foldl_mapInsert_mem relationshipAttrValue relations k rel hnd hmem _

/-- Witness for claim C9 on a concrete template whose `chief` relationship
overwrites the same-named attribute while `title` is kept. -/
theorem c9_resource_template_to_attrs_spec_witness :
    lookupKey "title" (resource_template_to_attrs
      { _type := "books", attributes := [("title", JsonValue.str "A"), ("chief", JsonValue.str "old")],
        relationships := some [("chief", build_has_one { _type := "people", id := "9" })],
        links := none, meta := none }) = some (JsonValue.str "A") ∧
    lookupKey "chief" (resource_template_to_attrs
      { _type := "books", attributes := [("title", JsonValue.str "A"), ("chief", JsonValue.str "old")],
        relationships := some [("chief", build_has_one { _type := "people", id := "9" })],
        links := none, meta := none }) =
      some (JsonValue.obj [("type", JsonValue.str "people"), ("id", JsonValue.str "9")]) :=
  ⟨(((c9_resource_template_to_attrs_spec _).2 _ rfl).1 "title" (by decide)).trans rfl,
    ((c9_resource_template_to_attrs_spec _).2 _ rfl).2 (by decide) "chief" (build_has_one { _type := "people", id := "9" })
      (by decide)⟩

/-- Claim C10, counterexample: `chiefTemplateExample` serializes to an
object and its `build_relationships` output covers exactly the fields
named by `relationship_fields`, yet the template round trip fails, because
the relationship entry does not serialize back to the original `chief`
field value. -/
theorem c10_template_round_trip_counterexample :
    chiefTemplateExample.relationship_fields = some ["chief"] ∧
    (chiefTemplateExample.build_relationships "alice").map (fun rels => rels.map Prod.fst) =
      some ["chief"] ∧
    chiefTemplateExample.toValue "alice" = JsonValue.obj [("chief", JsonValue.str "alice")] ∧
    to_jsonapi_resource_template chiefTemplateExample "alice" = some chiefTemplateStripped ∧
    from_jsonapi_resource_template chiefTemplateExample chiefTemplateStripped =
      Except.error "deserialization error" :=
  ⟨rfl, rfl, rfl, rfl, rfl⟩

/-- Claim C10 (amended): when additionally every declared relationship
entry serializes back to the original field's serialized value and
deserialization is insensitive to object member order,
`from_jsonapi_resource_template` after `to_jsonapi_resource_template`
restores the original value. -/
theorem c10_template_round_trip {α : Type} (T : JsonApiTemplate α) (x : α)
    (xs : List (String × JsonValue)) (hobj : T.toValue x = .obj xs)
    (rels : Relationships) (hrels : T.build_relationships x = some rels)
    (fields : List String) (hfields : T.relationship_fields = some fields)
    (hcover : ∀ k, k ∈ rels.map Prod.fst ↔ k ∈ fields)
    (hnd : (rels.map Prod.fst).Nodup)
    (hfaith : ∀ p ∈ rels, lookupKey p.1 xs = some (relationshipAttrValue p.2))
    (hlaw : ∀ l : List (String × JsonValue), mapEquiv l xs → T.fromValue (.obj l) = some x) :
    ∃ t, to_jsonapi_resource_template T x = some t ∧
      from_jsonapi_resource_template T t = Except.ok x := by
  refine ⟨_, by rw [to_jsonapi_resource_template, hobj], ?_⟩
  rw [from_jsonapi_resource_template, from_serializable]
  have hequiv : mapEquiv (resource_template_to_attrs
      { _type := T.jsonapi_type x
        attributes := extract_attributes T.relationship_fields xs
        relationships := T.build_relationships x
        links := none
        meta := none }) xs := by
    intro k
    simp only [resource_template_to_attrs, hrels]
    by_cases hk : k ∈ rels.map Prod.fst
    · obtain ⟨p, hp, hpk⟩ := List.mem_map.mp hk
      obtain ⟨k', rel⟩ := p
      subst hpk
      rw [lookupKey_foldl_mapInsert_mem relationshipAttrValue rels _ rel hnd hp _]
      exact (hfaith _ hp).symm
    · rw [lookupKey_foldl_mapInsert_not_mem relationshipAttrValue rels k hk _, hfields]
      exact lookupKey_extract_attributes_not_field (fun hc => hk ((hcover k).mpr hc)) xs
  rw [hlaw _ hequiv]

/-- Witness for claim C10 on the book-like template whose relationship
entry matches the serialized field. -/
theorem c10_template_round_trip_witness :
    ∃ t, to_jsonapi_resource_template bookTemplateExample "hobbit" = some t ∧
      from_jsonapi_resource_template bookTemplateExample t = Except.ok "hobbit" :=
  c10_template_round_trip bookTemplateExample "hobbit"
    [("title", .str "hobbit"), ("chief", .obj [("type", .str "people"), ("id", .str "9")])] rfl
    [("chief", build_has_one { _type := "people", id := "9" })] rfl
    ["chief"] rfl
    (fun _ => Iff.rfl)
    (by decide)
    (by
      intro p hp
      rcases List.mem_singleton.mp hp with rfl
      rfl)
    (by
      intro l hl
      have h := hl "title"
      simp only [lookupKey] at h
      simp only [bookTemplateExample, h]
      rfl)

end JsonApiSpec
